import Mathlib

/-!
# Verification of the BaseRunner lifecycle controller

This file is a shallow embedding, in Lean 4, of the `BaseRunner` class from
`src/BaseRunner.ts` of the `universal-base-runner` repository, together with
proofs about its lifecycle state machine.

Modelling choices:

* The class's mutable private fields become the record `RunnerState`.
* The single-threaded cooperative execution of an invocation of `run()`,
  `stop()`, `skip()` or `fail()` is serialized into a deterministic execution:
  the record `Exec` carries the runner state, a model clock, the ordered list
  of performed `Action`s (status assignments, event emissions, callback
  invocations, synchronous throws to the caller), and the list of runner-state
  snapshots observable at each suspension point (each `await` of a
  user-supplied callback).
* The subclass's asynchronous callbacks (`internalPrepare`, `internalRun`,
  `internalRelease`, `internalStop`, `internalFinally`) are abstracted by
  their outcomes in the record `Callbacks` (resolve, or reject with an error
  value; `internalRun` may resolve with a failure reason).
* The asynchronous races (an external `stop()` call arriving while `prepare`
  or `run` is pending, or the configured timeout elapsing before the run
  callback settles) are abstracted by the schedule type `Sched`, which says
  which intervention (if any) the environment performs.
* `new Date()` reads the model clock, which advances only at suspension
  points (awaiting a user callback); `TimeMeasurer` handles are start times,
  `Measurement` is the elapsed `Nat` difference.
* JavaScript truthiness is modelled explicitly where the source relies on it:
  `this._failureReason` is truthy iff it is a non-empty string or an Error
  value (`truthyFailure`), `this.options.timeout` is truthy iff it is present
  and non-zero (`timeoutConfigured`).
-/

namespace BaseRunner

/-- The `Status` enum from `BaseRunner.types.ts`. -/
inductive Status
  | idle
  | preparing
  | running
  | releasing
  | succeeded
  | error
  | failed
  | stopping
  | stopped
  | skipped
  | timedOut
deriving DecidableEq, Repr, Fintype

/-- The `RunMode` enum from `BaseRunner.types.ts`. -/
inductive RunMode
  | single
  | multi
deriving DecidableEq, Repr

/-- The `PrepareOnMultiMode` enum from `BaseRunner.types.ts`. -/
inductive PrepareOnMultiMode
  | always
  | never
  | onFirstRun
deriving DecidableEq, Repr

/-- The `ReleaseOnMultiMode` enum from `BaseRunner.types.ts`. -/
inductive ReleaseOnMultiMode
  | always
  | never
deriving DecidableEq, Repr

/-- The value of `this._failureReason`: the run callback may resolve with a
string or an `Error` value (errors are identified by a numeric id in the
model). -/
inductive FailureVal
  | str (s : String)
  | err (e : Nat)
deriving DecidableEq, Repr

/-- JavaScript truthiness of `this._failureReason : string | Error | void`:
`undefined` and the empty string are falsy, every `Error` object is truthy. -/
def truthyFailure : Option FailureVal → Bool
  | none => false
  | some (.str s) => s ≠ ""
  | some (.err _) => true

/-- JavaScript truthiness of `this.options.timeout : number | undefined` as
used by `if (this.options.timeout)`: `undefined` and `0` are falsy. -/
def timeoutConfigured : Option Nat → Bool
  | none => false
  | some n => n ≠ 0

/-- The recognized `BaseRunnerOptions`, plus `hasWarningListener`, which
models the result of `this.hasListeners('warning')` on the event-emitter
collaborator (assumed stable across one call, since subscription changes are
external to the runner). -/
structure BaseRunnerOptions where
  timeout : Option Nat
  runMode : RunMode
  prepareOnMultiMode : PrepareOnMultiMode
  releaseOnMultiMode : ReleaseOnMultiMode
  hasWarningListener : Bool
deriving DecidableEq, Repr

/-- Outcome of awaiting one of the `void`-returning subclass callbacks. -/
inductive HookOutcome
  | ok
  | throws (e : Nat)
deriving DecidableEq, Repr

/-- Outcome of awaiting `internalRun()`: it may resolve with a failure reason
(`string | Error | void`) or reject. -/
inductive RunOutcome
  | ok (r : Option FailureVal)
  | throws (e : Nat)
deriving DecidableEq, Repr

/-- The subclass extension points, abstracted by their outcomes. -/
structure Callbacks where
  prepareOutcome : HookOutcome
  runOutcome : RunOutcome
  releaseOutcome : HookOutcome
  stopOutcome : HookOutcome
  finallyOutcome : HookOutcome
deriving DecidableEq, Repr

/-- Whether `internalFinally` rejects. -/
def finThrows (cb : Callbacks) : Bool :=
  match cb.finallyOutcome with
  | .ok => false
  | .throws _ => true

/-- The mutable private fields of a `BaseRunner` instance
(`src/BaseRunner.ts`, lines 31-45). `timeoutSet` models whether the
`_timeout` field holds a (non-null) timer handle. -/
structure RunnerState where
  status : Status
  timeoutSet : Bool
  startedAt : Nat
  measurerStart : Nat
  stoppingReason : Option String
  markedAsStopping : Bool
  stoppingIsActive : Bool
  failureReason : Option FailureVal
  runHasFinished : Bool
  error : Option Nat
  skipReason : Option String
  finishedAt : Option Nat
  measurement : Option Nat
  timedOut : Bool
  prepared : Bool
deriving DecidableEq, Repr

/-- The public `startedAt` getter (lines 63-65): null while `Idle` or
`Skipped`. -/
def RunnerState.startedAtPub (s : RunnerState) : Option Nat :=
  if s.status ≠ Status.idle ∧ s.status ≠ Status.skipped then some s.startedAt else none

/-- Events published by the runner, with the payload parts the claims are
about (reasons and error messages; timestamps are read off the model clock
and are omitted from payloads). -/
inductive Ev
  | preparing
  | prepared
  | running
  | stopping (reason : Option String)
  | releasing
  | released
  | succeeded
  | failed (reason : Option FailureVal)
  | stopped (reason : Option String)
  | timedOut
  | skipped (reason : Option String)
  | errorEv (e : Nat) (message : String)
  | warning (message : String)
deriving DecidableEq, Repr

/-- The subclass callbacks, for recording which ones a lifecycle invokes. -/
inductive CB
  | prepare
  | run
  | release
  | stop
  | finallyCb
deriving DecidableEq, Repr

/-- One observable step of an execution. -/
inductive Action
  | setStatus (s : Status)
  | emitEv (e : Ev)
  | invoke (c : CB)
  | threw (message : String)
deriving DecidableEq, Repr

/-- A serialized execution: the runner state, the model clock, the ordered
trace of actions so far, and the runner-state snapshots observable at each
suspension point. -/
structure Exec where
  st : RunnerState
  now : Nat
  acts : List Action
  snaps : List RunnerState
deriving DecidableEq, Repr

/-- Apply a field update to the runner state. -/
def Exec.setSt (e : Exec) (f : RunnerState → RunnerState) : Exec :=
  { e with st := f e.st }

/-- Emit an event (synchronous dispatch by the event-emitter collaborator). -/
def Exec.emit (e : Exec) (ev : Ev) : Exec :=
  { e with acts := e.acts ++ [Action.emitEv ev] }

/-- Assign `this._status`. -/
def Exec.setStatus (e : Exec) (s : Status) : Exec :=
  { e with st := { e.st with status := s }, acts := e.acts ++ [Action.setStatus s] }

/-- Await a subclass callback: a suspension point. The current state becomes
observable to other callers, and the model clock advances. -/
def Exec.invokeHook (e : Exec) (c : CB) : Exec :=
  { e with acts := e.acts ++ [Action.invoke c], snaps := e.snaps ++ [e.st], now := e.now + 1 }

/-- Raise an exception synchronously to the caller of the public method. -/
def Exec.threw (e : Exec) (m : String) : Exec :=
  { e with acts := e.acts ++ [Action.threw m] }

/-- `STATUS_LEVEL_MAP` (lines 6-18). -/
def STATUS_LEVEL_MAP : Status → Nat
  | .idle => 0
  | .preparing => 1
  | .running => 2
  | .stopping => 2
  | .releasing => 3
  | .succeeded => 4
  | .failed => 4
  | .error => 4
  | .stopped => 4
  | .skipped => 4
  | .timedOut => 4

/-- `LEVEL_STATUSES_MAP` (lines 20-26). -/
def LEVEL_STATUSES_MAP : Nat → List Status
  | 0 => [.idle]
  | 1 => [.preparing]
  | 2 => [.running, .stopping]
  | 3 => [.releasing]
  | 4 => [.stopped, .failed, .error, .succeeded, .skipped, .timedOut]
  | _ => []

/-- The six terminal statuses. -/
def isTerminalStatus : Status → Bool
  | .succeeded => true
  | .failed => true
  | .error => true
  | .stopped => true
  | .skipped => true
  | .timedOut => true
  | _ => false

/-- `waitForStatusLevel` (lines 437-441) resolves immediately iff the
requested status's level is at most the current status's level. -/
def waitForStatusLevelImmediate (requested current : Status) : Bool :=
  decide (STATUS_LEVEL_MAP requested ≤ STATUS_LEVEL_MAP current)

/-- Otherwise `waitForStatusLevel` awaits `Promise.any` over the statuses at
the requested status's level: this is the set of statuses whose events can
resolve the wait. -/
def waitForStatusLevelWaitSet (requested : Status) : List Status :=
  LEVEL_STATUSES_MAP (STATUS_LEVEL_MAP requested)

/-- `_emitWarningOrThrow` (lines 453-459). -/
def emitWarningOrThrow (o : BaseRunnerOptions) (m : String) (e : Exec) : Exec :=
  if o.hasWarningListener then e.emit (.warning m) else e.threw m

/-- `_executeInternalFinally` (lines 461-467). -/
def executeInternalFinally (cb : Callbacks) (e : Exec) : Exec :=
  let e1 := e.invokeHook .finallyCb
  match cb.finallyOutcome with
  | .ok => e1
  | .throws v => e1.emit (.errorEv v "Internal finally failed")

/-- `_resetToIdle` (lines 509-518). -/
def resetToIdle (e : Exec) : Exec :=
  let e1 := e.setStatus .idle
  e1.setSt fun s =>
    { s with timeoutSet := false, stoppingReason := none, markedAsStopping := false,
             stoppingIsActive := false, runHasFinished := false, finishedAt := none,
             timedOut := false }

/-- `_resetIfMultiMode` (lines 503-507). -/
def resetIfMultiMode (o : BaseRunnerOptions) (e : Exec) : Exec :=
  if o.runMode = RunMode.multi then resetToIdle e else e

/-- The tail of `_attemptStop` after the (possible) `internalStop` call
succeeded (lines 492-497): clear any pending timer (the `_timeout` field
keeps its handle), emit `stopping`, assign `Stopping`, set
`_stoppingIsActive`. -/
def attemptStopTail (e : Exec) : Exec :=
  let e1 := e.emit (.stopping e.st.stoppingReason)
  let e2 := e1.setStatus .stopping
  e2.setSt fun s => { s with stoppingIsActive := true }

/-- `_attemptStop` (lines 488-501). If `internalStop` rejects, only the
`error` event is emitted and the status does not advance. -/
def attemptStop (cb : Callbacks) (callInternalStop : Bool) (e : Exec) : Exec :=
  if callInternalStop then
    let e1 := e.invokeHook .stop
    match cb.stopOutcome with
    | .throws v => e1.emit (.errorEv v "Attempt to stop runner failed")
    | .ok => attemptStopTail e1
  else attemptStopTail e

/-- `_dispatchMarkedAsStopping` (lines 484-486). -/
def dispatchMarkedAsStopping (cb : Callbacks) (callInternalStop : Bool) (e : Exec) : Exec :=
  if e.st.markedAsStopping then attemptStop cb callInternalStop e else e

/-- `_checkForStopping` (lines 469-482). Returns the execution and whether
the lifecycle was cut short by an honored stop. -/
def checkForStopping (o : BaseRunnerOptions) (cb : Callbacks) (callInternalStop : Bool)
    (e : Exec) : Exec × Bool :=
  let e1 := dispatchMarkedAsStopping cb callInternalStop e
  if e1.st.status = Status.stopping then
    let e2 := e1.setStatus .stopped
    let e3 := executeInternalFinally cb e2
    let e4 := e3.emit (.stopped e3.st.stoppingReason)
    (resetIfMultiMode o e4, true)
  else (e1, false)

/-- How a `stop()` call was classified by its entry `switch`. -/
inductive StopKind
  | rejected
  | attempted
  | marked
deriving DecidableEq, Repr

/-- The synchronous body of `stop(reason)` up to its final
`waitForStatusLevel` (lines 341-377): the entry `switch` either rejects the
call (warning-or-throw, no state change), or records the reason and then
attempts the stop (when `Running`) or marks the runner as stopping. -/
def stopCall (o : BaseRunnerOptions) (cb : Callbacks) (reason : Option String)
    (e : Exec) : Exec × StopKind :=
  match e.st.status with
  | .idle => (emitWarningOrThrow o "Stop was called but runner is not running" e, .rejected)
  | .stopping => (emitWarningOrThrow o "Stop was called but runner is already stopping" e, .rejected)
  | .skipped => (emitWarningOrThrow o "Stop was called but runner was skipped" e, .rejected)
  | .releasing => (emitWarningOrThrow o "Stop was called but runner is releasing" e, .rejected)
  | .failed => (emitWarningOrThrow o "Stop was called but runner has already finished" e, .rejected)
  | .error => (emitWarningOrThrow o "Stop was called but runner has already finished" e, .rejected)
  | .succeeded => (emitWarningOrThrow o "Stop was called but runner has already finished" e, .rejected)
  | .stopped => (emitWarningOrThrow o "Stop was called but runner has already finished" e, .rejected)
  | .timedOut => (emitWarningOrThrow o "Stop was called but runner has already finished" e, .rejected)
  | .running =>
      if e.st.runHasFinished then
        (emitWarningOrThrow o "Stop was called but runner has already finished" e, .rejected)
      else
        let e1 := e.setSt fun s => { s with stoppingReason := reason }
        (attemptStop cb true e1, .attempted)
  | .preparing =>
      let e1 := e.setSt fun s => { s with stoppingReason := reason }
      (e1.setSt fun s => { s with markedAsStopping := true }, .marked)

/-- The environment's intervention during one `run()` invocation: nothing, an
external `stop(reason)` call while `internalPrepare` is pending, an external
`stop(reason)` call while `internalRun` is pending (and not yet settled), or
the configured timeout elapsing before `internalRun` settles. -/
inductive Sched
  | quiet
  | stopDuringPrepare (reason : Option String)
  | stopDuringRun (reason : Option String)
  | timeoutFires
deriving DecidableEq, Repr

/-- The `itShouldPrepare` computation of `run()` (lines 160-174). -/
def itShouldPrepare (o : BaseRunnerOptions) (prepared : Bool) : Bool :=
  match o.runMode with
  | .single => true
  | .multi =>
      match o.prepareOnMultiMode with
      | .always => true
      | .onFirstRun => !prepared
      | .never => false

/-- The `shouldRelease` computation of `run()` (lines 268-276). -/
def shouldRelease (o : BaseRunnerOptions) : Bool :=
  match o.runMode with
  | .single => true
  | .multi =>
      match o.releaseOnMultiMode with
      | .always => true
      | .never => false

/-- The terminal decision of `run()` (lines 299-333): stop active and timed
out gives `TimedOut`; stop active gives `Stopped`; a truthy failure reason
gives `Failed`; otherwise `Succeeded`. `finishedAt` and `measurement` are
assigned in the same synchronous step as the terminal status. -/
def runTerminalDecision (o : BaseRunnerOptions) (cb : Callbacks) (e : Exec) : Exec :=
  if e.st.stoppingIsActive then
    if e.st.timedOut then
      let e1 := e.setStatus .timedOut
      let e2 := e1.setSt fun s =>
        { s with finishedAt := some e1.now, measurement := some (e1.now - s.measurerStart) }
      let e3 := executeInternalFinally cb e2
      resetIfMultiMode o (e3.emit .timedOut)
    else
      let e1 := e.setStatus .stopped
      let e2 := e1.setSt fun s =>
        { s with measurement := some (e1.now - s.measurerStart), finishedAt := some e1.now }
      let e3 := executeInternalFinally cb e2
      resetIfMultiMode o (e3.emit (.stopped e3.st.stoppingReason))
  else
    if truthyFailure e.st.failureReason then
      let e1 := e.setStatus .failed
      let e2 := e1.setSt fun s =>
        { s with finishedAt := some e1.now, measurement := some (e1.now - s.measurerStart) }
      let e3 := executeInternalFinally cb e2
      resetIfMultiMode o (e3.emit (.failed e3.st.failureReason))
    else
      let e1 := e.setStatus .succeeded
      let e2 := e1.setSt fun s =>
        { s with finishedAt := some e1.now, measurement := some (e1.now - s.measurerStart) }
      let e3 := executeInternalFinally cb e2
      resetIfMultiMode o (e3.emit .succeeded)

/-- The release block of `run()` (lines 278-297), followed by the terminal
decision. If `internalRelease` rejects, the lifecycle short-circuits to
`Error` with message "Release failed". -/
def runReleasePhase (o : BaseRunnerOptions) (cb : Callbacks) (e : Exec) : Exec :=
  if shouldRelease o then
    let e1 := e.setStatus .releasing
    let e2 := e1.emit .releasing
    let e3 := e2.invokeHook .release
    match cb.releaseOutcome with
    | .throws v =>
        let e4 := e3.setStatus .error
        let e5 := e4.setSt fun s => { s with error := some v }
        let e6 := executeInternalFinally cb e5
        resetIfMultiMode o (e6.emit (.errorEv v "Release failed"))
    | .ok =>
        runTerminalDecision o cb (e3.emit .released)
  else
    runTerminalDecision o cb e

/-- An external `stop()` call arriving while `internalRun` is pending, when
the schedule says so. -/
def applyStopDuringRun (o : BaseRunnerOptions) (cb : Callbacks) (sch : Sched) (e : Exec) : Exec :=
  match sch with
  | .stopDuringRun r => (stopCall o cb r e).1
  | _ => e

/-- The part of the running block after `internalRun` has settled (lines
230-234, 248-258): record the failure reason and `runHasFinished`, or
propagate the rejection to the `catch` at line 259 ("Run failed"); then the
release block. -/
def afterRunSettled (o : BaseRunnerOptions) (cb : Callbacks) (e : Exec) : Exec :=
  match cb.runOutcome with
  | .throws v =>
      let e1 := e.setStatus .error
      let e2 := e1.setSt fun s => { s with error := some v }
      let e3 := executeInternalFinally cb e2
      resetIfMultiMode o (e3.emit (.errorEv v "Run failed"))
  | .ok r =>
      let e1 := e.setSt fun s => { s with failureReason := r, runHasFinished := true }
      runReleasePhase o cb e1

/-- The running block of `run()` (lines 206-266): assign `Running`, emit
`running`, start `internalRun`, dispatch a pending marked stop, then either
race against the configured timeout or await the run promise directly. When
the timeout fires first, `timedOut` is marked, the stop procedure runs
without invoking `internalStop`, the still-pending run promise is detached
(its outcome is never consulted), and the lifecycle proceeds. -/
def runRunningPhase (o : BaseRunnerOptions) (cb : Callbacks) (sch : Sched) (e : Exec) : Exec :=
  let e1 := e.setStatus .running
  let e2 := e1.emit .running
  let e3 := e2.invokeHook .run
  let e4 := dispatchMarkedAsStopping cb true e3
  if timeoutConfigured o.timeout then
    let e5 := e4.setSt fun s => { s with timeoutSet := true }
    if sch = Sched.timeoutFires then
      let e6 := e5.setSt fun s => { s with timedOut := true }
      let e7 := e6.setSt fun s => { s with stoppingReason := some "Runner timed out" }
      let e8 := attemptStop cb false e7
      runReleasePhase o cb e8
    else
      afterRunSettled o cb (applyStopDuringRun o cb sch e5)
  else
    afterRunSettled o cb (applyStopDuringRun o cb sch e4)

/-- An external `stop()` call arriving while `internalPrepare` is pending,
when the schedule says so (the runner's status is `Preparing`, so the call
records the reason and sets `markedAsStopping`). -/
def applyStopDuringPrepare (o : BaseRunnerOptions) (cb : Callbacks) (sch : Sched) (e : Exec) : Exec :=
  match sch with
  | .stopDuringPrepare r => (stopCall o cb r e).1
  | _ => e

/-- Line 204 of `run()`: the stopping check between the prepare block and the
running block (with `callInternalStop = false`), then the running block. -/
def runAfterPrepare (o : BaseRunnerOptions) (cb : Callbacks) (sch : Sched) (e : Exec) : Exec :=
  let p := checkForStopping o cb false e
  if p.2 then p.1 else runRunningPhase o cb sch p.1

/-- The prepare block of `run()` (lines 176-202): the early stopping check at
line 181, assign `Preparing`, emit `preparing`, await `internalPrepare`
(during which a scheduled external stop may arrive), then either the `Error`
short-circuit ("Runner preparation failed") or emit `prepared`, record
`prepared`, and continue. -/
def runPreparePhase (o : BaseRunnerOptions) (cb : Callbacks) (sch : Sched) (e : Exec) : Exec :=
  let p := checkForStopping o cb false e
  if p.2 then p.1 else
  let e1 := (p.1.setStatus .preparing).emit .preparing
  let e2 := e1.invokeHook .prepare
  let e3 := applyStopDuringPrepare o cb sch e2
  match cb.prepareOutcome with
  | .throws v =>
      let e4 := e3.setStatus .error
      let e5 := e4.setSt fun s => { s with error := some v }
      let e6 := executeInternalFinally cb e5
      resetIfMultiMode o (e6.emit (.errorEv v "Runner preparation failed"))
  | .ok =>
      let e4 := (e3.emit .prepared).setSt fun s => { s with prepared := true }
      runAfterPrepare o cb sch e4

/-- `run()` (lines 143-333): the entry `switch` rejects a busy or finished
runner via warning-or-throw; from `Idle` it records `startedAt`, restarts the
measurer, and drives the lifecycle. -/
def runExec (o : BaseRunnerOptions) (cb : Callbacks) (sch : Sched) (e : Exec) : Exec :=
  match e.st.status with
  | .running => emitWarningOrThrow o "Run was called but runner is already running" e
  | .preparing => emitWarningOrThrow o "Run was called but runner is already running" e
  | .releasing => emitWarningOrThrow o "Run was called but runner is already running" e
  | .idle =>
      let e1 := e.setSt fun s => { s with startedAt := e.now, measurerStart := e.now }
      if itShouldPrepare o e1.st.prepared then runPreparePhase o cb sch e1
      else runAfterPrepare o cb sch e1
  | _ => emitWarningOrThrow o "Run was called but runner has already finished" e

/-- `skip(reason?)` (lines 387-403). -/
def skipExec (o : BaseRunnerOptions) (cb : Callbacks) (reason : Option String) (e : Exec) : Exec :=
  match e.st.status with
  | .idle =>
      let e1 := (e.setStatus .skipped).setSt fun s => { s with skipReason := reason }
      let e2 := executeInternalFinally cb e1
      resetIfMultiMode o (e2.emit (.skipped reason))
  | .skipped => emitWarningOrThrow o "Skip was called but runner is already skipped" e
  | _ => emitWarningOrThrow o "Skip was called but runner can only be skipped when idle" e

/-- `fail(reason)` (lines 410-429): from `Idle`, go straight to `Failed`,
record the reason, set `startedAt` and `finishedAt` to the moment of the
call, snapshot the measurement, run the finalize hook, emit `failed`. -/
def failExec (o : BaseRunnerOptions) (cb : Callbacks) (reason : FailureVal) (e : Exec) : Exec :=
  match e.st.status with
  | .idle =>
      let e1 := (e.setStatus .failed).setSt fun s =>
        { s with failureReason := some reason, startedAt := e.now, finishedAt := some e.now,
                 measurement := some (e.now - s.measurerStart) }
      let e2 := executeInternalFinally cb e1
      resetIfMultiMode o (e2.emit (.failed (some reason)))
  | .failed => emitWarningOrThrow o "Fail was called but runner is already failed" e
  | _ => emitWarningOrThrow o "Fail was called but runner can only be failed when idle" e

/-- An idle runner state as reachable at the top of a lifecycle invocation:
either freshly constructed or recycled by `_resetToIdle`, so the transient
flags (`markedAsStopping`, `stoppingIsActive`, `runHasFinished`, `timedOut`)
and `finishedAt` are clear, while `failureReason`, `error`, `skipReason`,
`measurement`, `stoppingReason` and `prepared` may hold leftovers of an
earlier lifecycle. -/
def mkIdleState (startedAt measurerStart : Nat) (failureReason : Option FailureVal)
    (error : Option Nat) (skipReason : Option String) (measurement : Option Nat)
    (prepared : Bool) : RunnerState :=
  { status := .idle, timeoutSet := false, startedAt := startedAt,
    measurerStart := measurerStart, stoppingReason := none, markedAsStopping := false,
    stoppingIsActive := false, failureReason := failureReason, runHasFinished := false,
    error := error, skipReason := skipReason, finishedAt := none,
    measurement := measurement, timedOut := false, prepared := prepared }

/-- An execution about to start on such an idle state, with an empty trace. -/
def mkIdleExec (startedAt measurerStart : Nat) (failureReason : Option FailureVal)
    (error : Option Nat) (skipReason : Option String) (measurement : Option Nat)
    (prepared : Bool) (now : Nat) : Exec :=
  { st := mkIdleState startedAt measurerStart failureReason error skipReason measurement prepared,
    now := now, acts := [], snaps := [] }

/-- The state of a freshly constructed runner (field initializers, lines
31-45), at construction time `t0`. -/
def initialState (t0 : Nat) : RunnerState :=
  mkIdleState t0 t0 none none none none false

/-- An execution on a freshly constructed runner. -/
def initialExec (t0 : Nat) : Exec :=
  { st := initialState t0, now := t0, acts := [], snaps := [] }

/-- The terminal events: the six lifecycle outcomes. An `error` event is
terminal exactly when it carries one of the three phase-failure messages
(the `error` events "Internal finally failed" and "Attempt to stop runner
failed" are side reports, not terminal events). -/
def isTerminalEvent : Ev → Bool
  | .succeeded => true
  | .failed _ => true
  | .stopped _ => true
  | .timedOut => true
  | .skipped _ => true
  | .errorEv _ m =>
      m == "Runner preparation failed" || m == "Run failed" || m == "Release failed"
  | _ => false

/-- An action that publishes a terminal event. -/
def isTerminalEmit : Action → Bool
  | .emitEv ev => isTerminalEvent ev
  | _ => false

/-- The terminal event that belongs to each terminal status. -/
def statusEventMatch : Status → Ev → Bool
  | .succeeded, .succeeded => true
  | .failed, .failed _ => true
  | .stopped, .stopped _ => true
  | .timedOut, .timedOut => true
  | .skipped, .skipped _ => true
  | .error, .errorEv _ m =>
      m == "Runner preparation failed" || m == "Run failed" || m == "Release failed"
  | _, _ => false

/-- After the terminal event, the only thing a lifecycle may still do is the
multi-mode reset to `Idle`. -/
def postOkA : List Action → Bool
  | [] => true
  | [.setStatus .idle] => true
  | _ => false

/-- The trace right after the finalize hook (and its optional failure
report): the matching terminal event, then at most the reset. -/
def finalEmit (T : Status) : List Action → Bool
  | .emitEv ev :: rest => isTerminalEvent ev && statusEventMatch T ev && postOkA rest
  | _ => false

/-- The trace right after the finalize hook was invoked: if the hook threw,
first its own `error` report ("Internal finally failed"), then the terminal
event. -/
def afterFin (T : Status) (fT : Bool) (l : List Action) : Bool :=
  if fT then
    match l with
    | .emitEv (.errorEv _ m) :: rest => (m == "Internal finally failed") && finalEmit T rest
    | _ => false
  else finalEmit T l

/-- Actions allowed before the terminal status is assigned: anything except
invoking the finalize hook, publishing a terminal event, or assigning a
terminal status. -/
def preCleanA : Action → Bool
  | .setStatus s => !isTerminalStatus s
  | .emitEv ev => !isTerminalEvent ev
  | .invoke .finallyCb => false
  | .invoke _ => true
  | .threw _ => true

/-- The finalize discipline of a completed lifecycle trace: some clean
actions, then the assignment of a terminal status immediately followed by
the (unique) invocation of the finalize hook, then — when the hook throws
(`fT`) — its `error` report, then the matching terminal event, then at most
the multi-mode reset. -/
def goodTrace (fT : Bool) : List Action → Bool
  | [] => false
  | .setStatus s :: rest =>
      if isTerminalStatus s then
        match rest with
        | .invoke .finallyCb :: rest2 => afterFin s fT rest2
        | _ => false
      else goodTrace fT rest
  | .invoke .finallyCb :: _ => false
  | .invoke _ :: rest => goodTrace fT rest
  | .emitEv ev :: rest => !isTerminalEvent ev && goodTrace fT rest
  | .threw _ :: rest => goodTrace fT rest

/-- The action suffix produced by `_executeInternalFinally`. -/
def finSeq (cb : Callbacks) : List Action :=
  Action.invoke .finallyCb ::
    match cb.finallyOutcome with
    | .ok => []
    | .throws v => [Action.emitEv (.errorEv v "Internal finally failed")]

/-- The single action a rejected call produces: a `warning` event when a
subscriber is registered, otherwise a synchronous throw. -/
def warnAct (o : BaseRunnerOptions) (m : String) : List Action :=
  if o.hasWarningListener then [Action.emitEv (.warning m)] else [Action.threw m]

/-- The scan used for claim C10: every terminal event emission must be
preceded (anywhere earlier in the trace) by the assignment of a status of
level 4. -/
def level4BeforeTerm : Bool → List Action → Bool
  | _, [] => true
  | seen, .setStatus s :: rest =>
      level4BeforeTerm (seen || decide (STATUS_LEVEL_MAP s = 4)) rest
  | seen, .emitEv ev :: rest =>
      (!isTerminalEvent ev || seen) && level4BeforeTerm seen rest
  | seen, .invoke _ :: rest => level4BeforeTerm seen rest
  | seen, .threw _ :: rest => level4BeforeTerm seen rest

/-- The pairing invariant of claim C5: `measurement` is set iff `finishedAt`
is set. -/
def PairSync (s : RunnerState) : Bool :=
  s.measurement.isSome == s.finishedAt.isSome

/-- The terminal-state priority order as the specification words it
(claim C2): stop active with timeout fired, then stop active, then a
non-empty failure reason, then success. -/
def specTerminalChoice (stopWasActive timedOutFired failureTruthy : Bool) : Status :=
  if stopWasActive && timedOutFired then .timedOut
  else if stopWasActive then .stopped
  else if failureTruthy then .failed
  else .succeeded

theorem executeInternalFinally_acts (cb : Callbacks) (e : Exec) :
    (executeInternalFinally cb e).acts = e.acts ++ finSeq cb := by
  cases h : cb.finallyOutcome <;>
    simp [executeInternalFinally, finSeq, Exec.invokeHook, Exec.emit, h]

theorem executeInternalFinally_st (cb : Callbacks) (e : Exec) :
    (executeInternalFinally cb e).st = e.st := by
  cases h : cb.finallyOutcome <;>
    simp [executeInternalFinally, Exec.invokeHook, Exec.emit, h]

theorem executeInternalFinally_snaps (cb : Callbacks) (e : Exec) :
    (executeInternalFinally cb e).snaps = e.snaps ++ [e.st] := by
  cases h : cb.finallyOutcome <;>
    simp [executeInternalFinally, Exec.invokeHook, Exec.emit, h]

/-- Scanning through clean actions leaves the finalize discipline of the
remaining trace unchanged. -/
theorem goodTrace_append (fT : Bool) (pre tl : List Action)
    (h : pre.all preCleanA = true) :
    goodTrace fT (pre ++ tl) = goodTrace fT tl := by
  induction pre with
  | nil => simp
  | cons a pre ih =>
      simp only [List.all_cons, Bool.and_eq_true] at h
      obtain ⟨ha, hpre⟩ := h
      cases a with
      | setStatus s =>
          simp only [preCleanA, Bool.not_eq_true'] at ha
          simp [goodTrace, ha, ih hpre]
      | emitEv ev =>
          simp only [preCleanA, Bool.not_eq_true'] at ha
          simp [goodTrace, ha, ih hpre]
      | invoke c =>
          cases c <;> simp_all [preCleanA, goodTrace]
      | threw m =>
          simp [goodTrace, ih hpre]

/-- The pivot of the finalize discipline: a terminal status assignment, the
finalize hook with its optional failure report, the matching terminal event,
and an allowed tail pass the scan. -/
theorem goodTrace_pivot (cb : Callbacks) (T : Status) (ev : Ev) (post : List Action)
    (hT : isTerminalStatus T = true) (hev : isTerminalEvent ev = true)
    (hm : statusEventMatch T ev = true) (hpost : postOkA post = true) :
    goodTrace (finThrows cb)
      (Action.setStatus T :: (finSeq cb ++ (Action.emitEv ev :: post))) = true := by
  cases h : cb.finallyOutcome <;>
    simp [goodTrace, finSeq, afterFin, finalEmit, finThrows, h, hT, hev, hm, hpost]

/-- The terminal decision always completes the finalize discipline. -/
theorem decision_goodTrace (o : BaseRunnerOptions) (cb : Callbacks) (e : Exec)
    (h : e.acts.all preCleanA = true) :
    goodTrace (finThrows cb) (runTerminalDecision o cb e).acts = true := by
  cases hS : e.st.stoppingIsActive <;> cases hT : e.st.timedOut <;>
    cases hF : truthyFailure e.st.failureReason <;> cases hm : o.runMode <;>
      simp [runTerminalDecision, hS, hT, hF, hm, resetIfMultiMode, resetToIdle,
        Exec.setStatus, Exec.setSt, Exec.emit, executeInternalFinally_acts,
        executeInternalFinally_st, List.append_assoc] <;>
      rw [goodTrace_append _ _ _ h] <;>
      exact goodTrace_pivot cb _ _ _ rfl rfl rfl rfl


theorem emitWarningOrThrow_acts (o : BaseRunnerOptions) (m : String) (e : Exec) :
    (emitWarningOrThrow o m e).acts = e.acts ++ warnAct o m := by
  cases hW : o.hasWarningListener <;>
    simp [emitWarningOrThrow, warnAct, Exec.emit, Exec.threw, hW]

theorem emitWarningOrThrow_st (o : BaseRunnerOptions) (m : String) (e : Exec) :
    (emitWarningOrThrow o m e).st = e.st := by
  cases hW : o.hasWarningListener <;>
    simp [emitWarningOrThrow, Exec.emit, Exec.threw, hW]

theorem emitWarningOrThrow_snaps (o : BaseRunnerOptions) (m : String) (e : Exec) :
    (emitWarningOrThrow o m e).snaps = e.snaps := by
  cases hW : o.hasWarningListener <;>
    simp [emitWarningOrThrow, Exec.emit, Exec.threw, hW]

theorem warnAct_clean (o : BaseRunnerOptions) (m : String) :
    (warnAct o m).all preCleanA = true := by
  cases hW : o.hasWarningListener <;> simp [warnAct, preCleanA, isTerminalEvent, hW]

/-- A stopping check that cuts the lifecycle short completes the finalize
discipline. -/
theorem checkForStopping_goodTrace (o : BaseRunnerOptions) (cb : Callbacks) (e : Exec)
    (h : e.acts.all preCleanA = true)
    (hq : (checkForStopping o cb false e).2 = true) :
    goodTrace (finThrows cb) (checkForStopping o cb false e).1.acts = true := by
  cases hM : e.st.markedAsStopping
  · by_cases hst : e.st.status = Status.stopping
    · cases hm : o.runMode <;>
        simp [checkForStopping, dispatchMarkedAsStopping, hM, hst, hm, resetIfMultiMode,
          resetToIdle, Exec.setStatus, Exec.setSt, Exec.emit, executeInternalFinally_acts,
          executeInternalFinally_st, List.append_assoc] <;>
        rw [goodTrace_append _ _ _ h] <;>
        exact goodTrace_pivot cb _ _ _ rfl rfl rfl rfl
    · simp [checkForStopping, dispatchMarkedAsStopping, hM, hst] at hq
  · cases hm : o.runMode <;>
      simp [checkForStopping, dispatchMarkedAsStopping, attemptStop, attemptStopTail, hM, hm,
        resetIfMultiMode, resetToIdle, Exec.setStatus, Exec.setSt, Exec.emit,
        executeInternalFinally_acts, executeInternalFinally_st, List.append_assoc] <;>
      rw [goodTrace_append _ _ _ h] <;>
      cases hf : cb.finallyOutcome <;>
      simp [goodTrace, isTerminalStatus, isTerminalEvent, finSeq, afterFin, finalEmit,
        postOkA, statusEventMatch, finThrows, hf]

/-- A stopping check that does not cut the lifecycle short leaves the
execution untouched. -/
theorem checkForStopping_continue (o : BaseRunnerOptions) (cb : Callbacks) (e : Exec)
    (hq : (checkForStopping o cb false e).2 = false) :
    (checkForStopping o cb false e).1 = e := by
  cases hM : e.st.markedAsStopping
  · by_cases hst : e.st.status = Status.stopping
    · simp [checkForStopping, dispatchMarkedAsStopping, hM, hst] at hq
    · simp [checkForStopping, dispatchMarkedAsStopping, hM, hst]
  · simp [checkForStopping, dispatchMarkedAsStopping, attemptStop, attemptStopTail, hM,
      Exec.setStatus, Exec.setSt, Exec.emit] at hq

/-- The release phase (and everything after it) completes the finalize
discipline. -/
theorem releasePhase_goodTrace (o : BaseRunnerOptions) (cb : Callbacks) (e : Exec)
    (h : e.acts.all preCleanA = true) :
    goodTrace (finThrows cb) (runReleasePhase o cb e).acts = true := by
  cases hsr : shouldRelease o
  · have := decision_goodTrace o cb e h
    simpa [runReleasePhase, hsr] using this
  · cases hr : cb.releaseOutcome
    · have h2 : ((((e.setStatus .releasing).emit .releasing).invokeHook .release).emit
          .released).acts.all preCleanA = true := by
        simp [Exec.setStatus, Exec.emit, Exec.invokeHook, List.all_append, h, preCleanA,
          isTerminalEvent, isTerminalStatus]
      have := decision_goodTrace o cb _ h2
      simpa [runReleasePhase, hsr, hr, Exec.setStatus, Exec.emit, Exec.invokeHook] using this
    · cases hm : o.runMode <;>
        simp [runReleasePhase, hsr, hr, hm, resetIfMultiMode, resetToIdle, Exec.setStatus,
          Exec.setSt, Exec.emit, Exec.invokeHook, executeInternalFinally_acts,
          executeInternalFinally_st, List.append_assoc] <;>
        rw [goodTrace_append _ _ _ h] <;>
        cases hf : cb.finallyOutcome <;>
        simp [goodTrace, isTerminalStatus, isTerminalEvent, finSeq, afterFin, finalEmit,
          postOkA, statusEventMatch, finThrows, hf]

/-- Settling the run promise (and everything after it) completes the
finalize discipline. -/
theorem afterRunSettled_goodTrace (o : BaseRunnerOptions) (cb : Callbacks) (e : Exec)
    (h : e.acts.all preCleanA = true) :
    goodTrace (finThrows cb) (afterRunSettled o cb e).acts = true := by
  cases hro : cb.runOutcome with
  | ok r =>
    have h2 : (e.setSt fun s =>
        { s with failureReason := r, runHasFinished := true }).acts.all preCleanA = true := by
      simpa [Exec.setSt] using h
    have := releasePhase_goodTrace o cb _ h2
    simpa [afterRunSettled, hro, Exec.setSt] using this
  | throws v =>
    cases hm : o.runMode <;>
      simp [afterRunSettled, hro, hm, resetIfMultiMode, resetToIdle, Exec.setStatus,
        Exec.setSt, Exec.emit, executeInternalFinally_acts, executeInternalFinally_st,
        List.append_assoc] <;>
      rw [goodTrace_append _ _ _ h] <;>
      cases hf : cb.finallyOutcome <;>
      simp [goodTrace, isTerminalStatus, isTerminalEvent, finSeq, afterFin, finalEmit,
        postOkA, statusEventMatch, finThrows, hf]

/-- The running phase (and everything after it) completes the finalize
discipline, whatever the schedule. -/
theorem runningPhase_goodTrace (o : BaseRunnerOptions) (cb : Callbacks) (sch : Sched) (e : Exec)
    (h : e.acts.all preCleanA = true) :
    goodTrace (finThrows cb) (runRunningPhase o cb sch e).acts = true := by
  cases hM : e.st.markedAsStopping <;>
  cases ht : timeoutConfigured o.timeout <;>
  cases sch <;>
  cases hso : cb.stopOutcome <;>
  cases hrf : e.st.runHasFinished <;>
  simp [runRunningPhase, dispatchMarkedAsStopping, applyStopDuringRun, stopCall,
    attemptStop, attemptStopTail, Exec.setStatus, Exec.setSt, Exec.emit, Exec.invokeHook,
    hM, ht, hso, hrf] <;>
  first
    | (apply afterRunSettled_goodTrace
       simp [Exec.setStatus, Exec.setSt, Exec.emit, Exec.invokeHook, emitWarningOrThrow_acts,
         warnAct_clean, List.all_append, h, preCleanA, isTerminalEvent, isTerminalStatus])
    | (apply releasePhase_goodTrace
       simp [Exec.setStatus, Exec.setSt, Exec.emit, Exec.invokeHook, emitWarningOrThrow_acts,
         warnAct_clean, List.all_append, h, preCleanA, isTerminalEvent, isTerminalStatus])

/-- The post-prepare stopping check (and everything after it) completes the
finalize discipline. -/
theorem afterPrepare_goodTrace (o : BaseRunnerOptions) (cb : Callbacks) (sch : Sched) (e : Exec)
    (h : e.acts.all preCleanA = true) :
    goodTrace (finThrows cb) (runAfterPrepare o cb sch e).acts = true := by
  cases hq : (checkForStopping o cb false e).2
  · have he := checkForStopping_continue o cb e hq
    simp [runAfterPrepare, hq, he]
    exact runningPhase_goodTrace o cb sch e h
  · simp [runAfterPrepare, hq]
    exact checkForStopping_goodTrace o cb e h hq

/-- The prepare phase (and everything after it) completes the finalize
discipline, whatever the schedule. -/
theorem preparePhase_goodTrace (o : BaseRunnerOptions) (cb : Callbacks) (sch : Sched) (e : Exec)
    (h : e.acts.all preCleanA = true) :
    goodTrace (finThrows cb) (runPreparePhase o cb sch e).acts = true := by
  cases hq : (checkForStopping o cb false e).2
  · have he := checkForStopping_continue o cb e hq
    cases hpo : cb.prepareOutcome <;> cases sch <;>
      simp [runPreparePhase, hq, he, applyStopDuringPrepare, stopCall, hpo, Exec.setStatus,
        Exec.setSt, Exec.emit, Exec.invokeHook] <;>
      first
        | (apply afterPrepare_goodTrace
           simp [List.all_append, h, preCleanA, isTerminalEvent, isTerminalStatus])
        | (cases hm : o.runMode <;>
           simp [resetIfMultiMode, resetToIdle, hm, Exec.setStatus, Exec.setSt, Exec.emit,
             executeInternalFinally_acts, executeInternalFinally_st, List.append_assoc] <;>
           rw [goodTrace_append _ _ _ h] <;>
           cases hf : cb.finallyOutcome <;>
           simp [goodTrace, isTerminalStatus, isTerminalEvent, finSeq, afterFin, finalEmit,
             postOkA, statusEventMatch, finThrows, hf])
  · simp [runPreparePhase, hq]
    exact checkForStopping_goodTrace o cb e h hq

/-- Any `run()` invocation accepted from an idle state completes the
finalize discipline: the finalize hook is invoked exactly once, immediately
after the terminal status is assigned, its failure is reported before the
terminal event, and the matching terminal event follows. -/
theorem runExec_goodTrace (o : BaseRunnerOptions) (cb : Callbacks) (sch : Sched)
    (sa ms : Nat) (fr : Option FailureVal) (er : Option Nat) (sk : Option String)
    (me : Option Nat) (p : Bool) (n : Nat) :
    goodTrace (finThrows cb)
      (runExec o cb sch (mkIdleExec sa ms fr er sk me p n)).acts = true := by
  cases hp : itShouldPrepare o p <;>
    simp [runExec, mkIdleExec, mkIdleState, Exec.setSt, hp] <;>
    first
      | (apply preparePhase_goodTrace
         simp)
      | (apply afterPrepare_goodTrace
         simp)

/-- A `skip()` call accepted from an idle state completes the finalize
discipline. -/
theorem skipExec_goodTrace (o : BaseRunnerOptions) (cb : Callbacks) (r : Option String)
    (sa ms : Nat) (fr : Option FailureVal) (er : Option Nat) (sk : Option String)
    (me : Option Nat) (p : Bool) (n : Nat) :
    goodTrace (finThrows cb)
      (skipExec o cb r (mkIdleExec sa ms fr er sk me p n)).acts = true := by
  cases hm : o.runMode <;>
    simp [skipExec, mkIdleExec, mkIdleState, resetIfMultiMode, resetToIdle, hm,
      Exec.setStatus, Exec.setSt, Exec.emit, executeInternalFinally_acts,
      executeInternalFinally_st, List.append_assoc] <;>
    cases hf : cb.finallyOutcome <;>
    simp [goodTrace, finSeq, afterFin, finalEmit, postOkA, isTerminalStatus,
      isTerminalEvent, statusEventMatch, finThrows, hf]

/-- A `fail(reason)` call accepted from an idle state completes the finalize
discipline. -/
theorem failExec_goodTrace (o : BaseRunnerOptions) (cb : Callbacks) (r : FailureVal)
    (sa ms : Nat) (fr : Option FailureVal) (er : Option Nat) (sk : Option String)
    (me : Option Nat) (p : Bool) (n : Nat) :
    goodTrace (finThrows cb)
      (failExec o cb r (mkIdleExec sa ms fr er sk me p n)).acts = true := by
  cases hm : o.runMode <;>
    simp [failExec, mkIdleExec, mkIdleState, resetIfMultiMode, resetToIdle, hm,
      Exec.setStatus, Exec.setSt, Exec.emit, executeInternalFinally_acts,
      executeInternalFinally_st, List.append_assoc] <;>
    cases hf : cb.finallyOutcome <;>
    simp [goodTrace, finSeq, afterFin, finalEmit, postOkA, isTerminalStatus,
      isTerminalEvent, statusEventMatch, finThrows, hf]

/-- Inversion of `postOkA`. -/
theorem postOkA_inv (l : List Action) (h : postOkA l = true) :
    l = [] ∨ l = [Action.setStatus .idle] := by
  unfold postOkA at h
  split at h
  · exact Or.inl rfl
  · exact Or.inr rfl
  · exact absurd h (by simp)

/-- Inversion of `finalEmit`. -/
theorem finalEmit_inv (T : Status) (l : List Action) (h : finalEmit T l = true) :
    ∃ ev rest, l = Action.emitEv ev :: rest ∧ isTerminalEvent ev = true ∧
      statusEventMatch T ev = true ∧ postOkA rest = true := by
  unfold finalEmit at h
  split at h
  · rename_i ev rest
    simp only [Bool.and_eq_true] at h
    exact ⟨ev, rest, rfl, h.1.1, h.1.2, h.2⟩
  · exact absurd h (by simp)

/-- Inversion of `afterFin`. -/
theorem afterFin_inv (T : Status) (fT : Bool) (l : List Action)
    (h : afterFin T fT l = true) :
    (fT = false ∧ finalEmit T l = true) ∨
    (fT = true ∧ ∃ v m rest, l = Action.emitEv (.errorEv v m) :: rest ∧
      finalEmit T rest = true) := by
  unfold afterFin at h
  cases fT with
  | false => exact Or.inl ⟨rfl, by simpa using h⟩
  | true =>
      simp only [if_true] at h
      split at h
      · rename_i v m rest
        simp only [Bool.and_eq_true] at h
        exact Or.inr ⟨rfl, v, m, rest, rfl, h.2⟩
      · exact absurd h (by simp)

/-- Stronger inversion of `afterFin` in the throwing case: the interposed
`error` event carries the message "Internal finally failed". -/
theorem afterFin_inv_msg (T : Status) (fT : Bool) (l : List Action)
    (h : afterFin T fT l = true) :
    (fT = false ∧ finalEmit T l = true) ∨
    (fT = true ∧ ∃ v rest, l = Action.emitEv (.errorEv v "Internal finally failed") :: rest ∧
      finalEmit T rest = true) := by
  unfold afterFin at h
  cases fT with
  | false => exact Or.inl ⟨rfl, by simpa using h⟩
  | true =>
      simp only [if_true] at h
      split at h
      · rename_i v m rest
        simp only [Bool.and_eq_true, beq_iff_eq] at h
        exact Or.inr ⟨rfl, v, rest, by rw [h.1], h.2⟩
      · exact absurd h (by simp)

/-- After the finalize invocation, the finalize hook is never invoked
again. -/
theorem afterFin_countFin (T : Status) (fT : Bool) (l : List Action)
    (h : afterFin T fT l = true) :
    l.count (Action.invoke CB.finallyCb) = 0 := by
  rcases afterFin_inv T fT l h with ⟨_, hf⟩ | ⟨_, v, m, rest, rfl, hf⟩
  · rcases finalEmit_inv _ _ hf with ⟨ev, rest, rfl, _, _, hp⟩
    rcases postOkA_inv _ hp with rfl | rfl <;> simp
  · rcases finalEmit_inv _ _ hf with ⟨ev, rest2, rfl, _, _, hp⟩
    rcases postOkA_inv _ hp with rfl | rfl <;> simp

theorem isTerminalEmit_setStatus (s : Status) : isTerminalEmit (Action.setStatus s) = false := rfl

theorem isTerminalEmit_invoke (c : CB) : isTerminalEmit (Action.invoke c) = false := rfl

theorem isTerminalEmit_threw (m : String) : isTerminalEmit (Action.threw m) = false := rfl

theorem isTerminalEmit_emit (ev : Ev) : isTerminalEmit (Action.emitEv ev) = isTerminalEvent ev := rfl

theorem isTerminalEvent_finallyReport (v : Nat) :
    isTerminalEvent (Ev.errorEv v "Internal finally failed") = false := by
  simp only [isTerminalEvent]
  decide

/-- After the finalize invocation, exactly one terminal event is
published. -/
theorem afterFin_countTerm (T : Status) (fT : Bool) (l : List Action)
    (h : afterFin T fT l = true) :
    l.countP (fun a => isTerminalEmit a) = 1 := by
  rcases afterFin_inv_msg T fT l h with ⟨_, hf⟩ | ⟨_, v, rest, rfl, hf⟩
  · rcases finalEmit_inv _ _ hf with ⟨ev, rest, rfl, hev, _, hp⟩
    rcases postOkA_inv _ hp with rfl | rfl <;>
      simp [List.countP_cons, isTerminalEmit_emit, isTerminalEmit_setStatus, hev]
  · rcases finalEmit_inv _ _ hf with ⟨ev, rest2, rfl, hev, _, hp⟩
    rcases postOkA_inv _ hp with rfl | rfl <;>
      simp [List.countP_cons, isTerminalEmit_emit, isTerminalEmit_setStatus, hev,
        isTerminalEvent_finallyReport]

/-- A trace passing the finalize discipline invokes the finalize hook
exactly once. -/
theorem goodTrace_countFin (fT : Bool) :
    ∀ l, goodTrace fT l = true → l.count (Action.invoke CB.finallyCb) = 1 := by
  intro l
  induction l with
  | nil => intro h; simp [goodTrace] at h
  | cons a rest ih =>
      intro h
      cases a with
      | setStatus s =>
          cases hts : isTerminalStatus s with
          | true =>
              simp only [goodTrace, hts, if_true] at h
              split at h
              · rename_i rest2
                simp [List.count_cons, afterFin_countFin s fT rest2 h]
              · exact absurd h (by simp)
          | false =>
              simp only [goodTrace, hts, Bool.false_eq_true, if_false] at h
              simp [List.count_cons, ih h]
      | emitEv ev =>
          simp only [goodTrace, Bool.and_eq_true] at h
          simp [List.count_cons, ih h.2]
      | invoke c =>
          cases c with
          | finallyCb => exact absurd h (by simp [goodTrace])
          | prepare => simp only [goodTrace] at h; simp [List.count_cons, ih h]
          | run => simp only [goodTrace] at h; simp [List.count_cons, ih h]
          | release => simp only [goodTrace] at h; simp [List.count_cons, ih h]
          | stop => simp only [goodTrace] at h; simp [List.count_cons, ih h]
      | threw m =>
          simp only [goodTrace] at h
          simp [List.count_cons, ih h]

/-- A trace passing the finalize discipline publishes exactly one terminal
event. -/
theorem goodTrace_countTerm (fT : Bool) :
    ∀ l, goodTrace fT l = true → l.countP (fun a => isTerminalEmit a) = 1 := by
  intro l
  induction l with
  | nil => intro h; simp [goodTrace] at h
  | cons a rest ih =>
      intro h
      cases a with
      | setStatus s =>
          cases hts : isTerminalStatus s with
          | true =>
              simp only [goodTrace, hts, if_true] at h
              split at h
              · rename_i rest2
                simp [List.countP_cons, isTerminalEmit_setStatus, isTerminalEmit_invoke,
                  afterFin_countTerm s fT rest2 h]
              · exact absurd h (by simp)
          | false =>
              simp only [goodTrace, hts, Bool.false_eq_true, if_false] at h
              simp [List.countP_cons, isTerminalEmit_setStatus, ih h]
      | emitEv ev =>
          simp only [goodTrace, Bool.and_eq_true, Bool.not_eq_true'] at h
          simp [List.countP_cons, isTerminalEmit_emit, h.1, ih h.2]
      | invoke c =>
          cases c with
          | finallyCb => exact absurd h (by simp [goodTrace])
          | prepare => simp only [goodTrace] at h; simp [List.countP_cons, isTerminalEmit_invoke, ih h]
          | run => simp only [goodTrace] at h; simp [List.countP_cons, isTerminalEmit_invoke, ih h]
          | release => simp only [goodTrace] at h; simp [List.countP_cons, isTerminalEmit_invoke, ih h]
          | stop => simp only [goodTrace] at h; simp [List.countP_cons, isTerminalEmit_invoke, ih h]
      | threw m =>
          simp only [goodTrace] at h
          simp [List.countP_cons, isTerminalEmit_threw, ih h]


/-- Once a level-4 assignment has been seen, the scan always passes. -/
theorem level4BeforeTerm_seen : ∀ l, level4BeforeTerm true l = true := by
  intro l
  induction l with
  | nil => rfl
  | cons a rest ih => cases a <;> simp [level4BeforeTerm, ih]

/-- Every terminal status sits at level 4. -/
theorem terminalStatus_level (s : Status) (h : isTerminalStatus s = true) :
    STATUS_LEVEL_MAP s = 4 := by
  cases s <;> simp [isTerminalStatus] at h ⊢ <;> rfl

/-- In a trace passing the finalize discipline, no terminal event is
published before a level-4 status has been assigned. -/
theorem goodTrace_level4 (fT : Bool) :
    ∀ l, goodTrace fT l = true → ∀ seen, level4BeforeTerm seen l = true := by
  intro l
  induction l with
  | nil => intro h; simp [goodTrace] at h
  | cons a rest ih =>
      intro h seen
      cases a with
      | setStatus s =>
          cases hts : isTerminalStatus s with
          | true =>
              simp only [goodTrace, hts, if_true] at h
              split at h
              · rename_i rest2
                simp [level4BeforeTerm, terminalStatus_level s hts,
                  level4BeforeTerm_seen]
              · exact absurd h (by simp)
          | false =>
              simp only [goodTrace, hts, Bool.false_eq_true, if_false] at h
              simp [level4BeforeTerm, ih h]
      | emitEv ev =>
          simp only [goodTrace, Bool.and_eq_true, Bool.not_eq_true'] at h
          simp [level4BeforeTerm, h.1, ih h.2]
      | invoke c =>
          cases c with
          | finallyCb => exact absurd h (by simp [goodTrace])
          | prepare => simp only [goodTrace] at h; simp [level4BeforeTerm, ih h]
          | run => simp only [goodTrace] at h; simp [level4BeforeTerm, ih h]
          | release => simp only [goodTrace] at h; simp [level4BeforeTerm, ih h]
          | stop => simp only [goodTrace] at h; simp [level4BeforeTerm, ih h]
      | threw m =>
          simp only [goodTrace] at h
          simp [level4BeforeTerm, ih h]


/-- The terminal decision keeps every observable snapshot, and (in
single-run mode) the final state, pair-synchronized. -/
theorem decision_snaps (o : BaseRunnerOptions) (cb : Callbacks) (e : Exec)
    (hP : PairSync e.st = true) (hS : e.snaps.all PairSync = true) :
    (runTerminalDecision o cb e).snaps.all PairSync = true ∧
    (o.runMode = RunMode.single → PairSync (runTerminalDecision o cb e).st = true) := by
  simp only [PairSync] at hP
  cases hSa : e.st.stoppingIsActive <;> cases hT : e.st.timedOut <;>
    cases hF : truthyFailure e.st.failureReason <;> cases hm : o.runMode <;>
      simp [runTerminalDecision, hSa, hT, hF, hm, resetIfMultiMode, resetToIdle,
        Exec.setStatus, Exec.setSt, Exec.emit, executeInternalFinally_st,
        executeInternalFinally_snaps, PairSync, List.all_append, hS, hP]

/-- The release phase keeps every observable snapshot, and (in single-run
mode) the final state, pair-synchronized. -/
theorem releasePhase_snaps (o : BaseRunnerOptions) (cb : Callbacks) (e : Exec)
    (hP : PairSync e.st = true) (hS : e.snaps.all PairSync = true) :
    (runReleasePhase o cb e).snaps.all PairSync = true ∧
    (o.runMode = RunMode.single → PairSync (runReleasePhase o cb e).st = true) := by
  cases hsr : shouldRelease o
  · have := decision_snaps o cb e hP hS
    simpa [runReleasePhase, hsr] using this
  · cases hr : cb.releaseOutcome
    · have h2 := decision_snaps o cb
        ((((e.setStatus .releasing).emit .releasing).invokeHook .release).emit .released)
        (by simpa [Exec.setStatus, Exec.emit, Exec.invokeHook, PairSync] using hP)
        (by simp [Exec.setStatus, Exec.emit, Exec.invokeHook, List.all_append, hS]
            simpa [PairSync] using hP)
      simpa [runReleasePhase, hsr, hr, Exec.setStatus, Exec.emit, Exec.invokeHook] using h2
    · simp only [PairSync] at hP
      cases hm : o.runMode <;>
        simp [runReleasePhase, hsr, hr, hm, resetIfMultiMode, resetToIdle, Exec.setStatus,
          Exec.setSt, Exec.emit, Exec.invokeHook, executeInternalFinally_st,
          executeInternalFinally_snaps, PairSync, List.all_append, hS, hP]

/-- Settling the run promise keeps every observable snapshot, and (in
single-run mode) the final state, pair-synchronized. -/
theorem afterRunSettled_snaps (o : BaseRunnerOptions) (cb : Callbacks) (e : Exec)
    (hP : PairSync e.st = true) (hS : e.snaps.all PairSync = true) :
    (afterRunSettled o cb e).snaps.all PairSync = true ∧
    (o.runMode = RunMode.single → PairSync (afterRunSettled o cb e).st = true) := by
  cases hro : cb.runOutcome with
  | ok r =>
      have h2 := releasePhase_snaps o cb
        (e.setSt fun s => { s with failureReason := r, runHasFinished := true })
        (by simpa [Exec.setSt, PairSync] using hP) (by simpa [Exec.setSt] using hS)
      simpa [afterRunSettled, hro, Exec.setSt] using h2
  | throws v =>
      simp only [PairSync] at hP
      cases hm : o.runMode <;>
        simp [afterRunSettled, hro, hm, resetIfMultiMode, resetToIdle, Exec.setStatus,
          Exec.setSt, Exec.emit, executeInternalFinally_st, executeInternalFinally_snaps,
          PairSync, List.all_append, hS, hP]

/-- The running phase keeps every observable snapshot, and (in single-run
mode) the final state, pair-synchronized. -/
theorem runningPhase_snaps (o : BaseRunnerOptions) (cb : Callbacks) (sch : Sched) (e : Exec)
    (hP : PairSync e.st = true) (hS : e.snaps.all PairSync = true) :
    (runRunningPhase o cb sch e).snaps.all PairSync = true ∧
    (o.runMode = RunMode.single → PairSync (runRunningPhase o cb sch e).st = true) := by
  have hP' := hP
  simp only [PairSync] at hP'
  cases hM : e.st.markedAsStopping <;>
  cases ht : timeoutConfigured o.timeout <;>
  cases sch <;>
  cases hso : cb.stopOutcome <;>
  cases hrf : e.st.runHasFinished <;>
  simp [runRunningPhase, dispatchMarkedAsStopping, applyStopDuringRun, stopCall,
    attemptStop, attemptStopTail, Exec.setStatus, Exec.setSt, Exec.emit,
    Exec.invokeHook, hM, ht, hso, hrf, -List.all_eq_true] <;>
  first
    | (apply afterRunSettled_snaps <;>
       simp [Exec.setStatus, Exec.setSt, Exec.emit, Exec.invokeHook, emitWarningOrThrow_st,
         emitWarningOrThrow_snaps, PairSync, List.all_append, List.all_cons, hS, hP',
         -List.all_eq_true])
    | (apply releasePhase_snaps <;>
       simp [Exec.setStatus, Exec.setSt, Exec.emit, Exec.invokeHook, emitWarningOrThrow_st,
         emitWarningOrThrow_snaps, PairSync, List.all_append, List.all_cons, hS, hP',
         -List.all_eq_true])

/-- A stopping check that cuts the lifecycle short keeps snapshots and (in
single-run mode) the final state pair-synchronized: this path assigns
neither `measurement` nor `finishedAt`. -/
theorem checkForStopping_snaps (o : BaseRunnerOptions) (cb : Callbacks) (e : Exec)
    (hP : PairSync e.st = true) (hS : e.snaps.all PairSync = true)
    (hq : (checkForStopping o cb false e).2 = true) :
    (checkForStopping o cb false e).1.snaps.all PairSync = true ∧
    (o.runMode = RunMode.single → PairSync (checkForStopping o cb false e).1.st = true) := by
  have hP' := hP
  simp only [PairSync] at hP'
  cases hM : e.st.markedAsStopping
  · by_cases hst : e.st.status = Status.stopping
    · cases hm : o.runMode <;>
        simp [checkForStopping, dispatchMarkedAsStopping, hM, hst, hm, resetIfMultiMode,
          resetToIdle, Exec.setStatus, Exec.setSt, Exec.emit, executeInternalFinally_st,
          executeInternalFinally_snaps, PairSync, List.all_append, List.all_cons, hS, hP',
          -List.all_eq_true]
    · simp [checkForStopping, dispatchMarkedAsStopping, hM, hst] at hq
  · cases hm : o.runMode <;>
      simp [checkForStopping, dispatchMarkedAsStopping, attemptStop, attemptStopTail, hM, hm,
        resetIfMultiMode, resetToIdle, Exec.setStatus, Exec.setSt, Exec.emit,
        executeInternalFinally_st, executeInternalFinally_snaps, PairSync, List.all_append,
        List.all_cons, hS, hP', -List.all_eq_true]

/-- The post-prepare stopping check and everything after it keep snapshots
and (in single-run mode) the final state pair-synchronized. -/
theorem afterPrepare_snaps (o : BaseRunnerOptions) (cb : Callbacks) (sch : Sched) (e : Exec)
    (hP : PairSync e.st = true) (hS : e.snaps.all PairSync = true) :
    (runAfterPrepare o cb sch e).snaps.all PairSync = true ∧
    (o.runMode = RunMode.single → PairSync (runAfterPrepare o cb sch e).st = true) := by
  cases hq : (checkForStopping o cb false e).2
  · have he := checkForStopping_continue o cb e hq
    simp only [runAfterPrepare, hq, he, Bool.false_eq_true, if_false]
    exact runningPhase_snaps o cb sch e hP hS
  · simp only [runAfterPrepare, hq, if_true]
    exact checkForStopping_snaps o cb e hP hS hq

/-- The prepare phase and everything after it keep snapshots and (in
single-run mode) the final state pair-synchronized. -/
theorem preparePhase_snaps (o : BaseRunnerOptions) (cb : Callbacks) (sch : Sched) (e : Exec)
    (hP : PairSync e.st = true) (hS : e.snaps.all PairSync = true) :
    (runPreparePhase o cb sch e).snaps.all PairSync = true ∧
    (o.runMode = RunMode.single → PairSync (runPreparePhase o cb sch e).st = true) := by
  have hP' := hP
  simp only [PairSync] at hP'
  cases hq : (checkForStopping o cb false e).2
  · have he := checkForStopping_continue o cb e hq
    cases hpo : cb.prepareOutcome <;> cases sch <;>
      simp [runPreparePhase, hq, he, applyStopDuringPrepare, stopCall, hpo, Exec.setStatus,
        Exec.setSt, Exec.emit, Exec.invokeHook, -List.all_eq_true] <;>
      first
        | (apply afterPrepare_snaps <;>
           simp [PairSync, List.all_append, List.all_cons, hS, hP', -List.all_eq_true])
        | (cases hm : o.runMode <;>
           simp [resetIfMultiMode, resetToIdle, hm, Exec.setStatus, Exec.setSt, Exec.emit,
             executeInternalFinally_st, executeInternalFinally_snaps, PairSync,
             List.all_append, List.all_cons, hS, hP', -List.all_eq_true])
  · simp only [runPreparePhase, hq, if_true]
    exact checkForStopping_snaps o cb e hP hS hq

/-- An accepted `run()` on a runner whose `measurement` and `finishedAt` are
both clear keeps every observable snapshot pair-synchronized, and in
single-run mode also the final state. -/
theorem runExec_snaps (o : BaseRunnerOptions) (cb : Callbacks) (sch : Sched)
    (sa ms : Nat) (fr : Option FailureVal) (er : Option Nat) (sk : Option String)
    (p : Bool) (n : Nat) :
    (runExec o cb sch (mkIdleExec sa ms fr er sk none p n)).snaps.all PairSync = true ∧
    (o.runMode = RunMode.single →
      PairSync (runExec o cb sch (mkIdleExec sa ms fr er sk none p n)).st = true) := by
  cases hp : itShouldPrepare o p <;>
    simp only [runExec, mkIdleExec, mkIdleState, Exec.setSt, hp, Bool.false_eq_true,
      if_true, if_false] <;>
    first
      | (apply preparePhase_snaps <;> simp [PairSync])
      | (apply afterPrepare_snaps <;> simp [PairSync])

/-- An accepted `skip()` assigns neither `measurement` nor `finishedAt`:
snapshots and (in single-run mode) the final state stay
pair-synchronized. -/
theorem skipExec_snaps (o : BaseRunnerOptions) (cb : Callbacks) (r : Option String)
    (sa ms : Nat) (fr : Option FailureVal) (er : Option Nat) (sk : Option String)
    (p : Bool) (n : Nat) :
    (skipExec o cb r (mkIdleExec sa ms fr er sk none p n)).snaps.all PairSync = true ∧
    (o.runMode = RunMode.single →
      PairSync (skipExec o cb r (mkIdleExec sa ms fr er sk none p n)).st = true) := by
  cases hm : o.runMode <;>
    simp [skipExec, mkIdleExec, mkIdleState, resetIfMultiMode, resetToIdle, hm,
      Exec.setStatus, Exec.setSt, Exec.emit, executeInternalFinally_st,
      executeInternalFinally_snaps, PairSync, List.all_append, List.all_cons,
      -List.all_eq_true]

/-- An accepted `fail(reason)` assigns `measurement` and `finishedAt` in the
same step: snapshots and (in single-run mode) the final state stay
pair-synchronized. -/
theorem failExec_snaps (o : BaseRunnerOptions) (cb : Callbacks) (r : FailureVal)
    (sa ms : Nat) (fr : Option FailureVal) (er : Option Nat) (sk : Option String)
    (p : Bool) (n : Nat) :
    (failExec o cb r (mkIdleExec sa ms fr er sk none p n)).snaps.all PairSync = true ∧
    (o.runMode = RunMode.single →
      PairSync (failExec o cb r (mkIdleExec sa ms fr er sk none p n)).st = true) := by
  cases hm : o.runMode <;>
    simp [failExec, mkIdleExec, mkIdleState, resetIfMultiMode, resetToIdle, hm,
      Exec.setStatus, Exec.setSt, Exec.emit, executeInternalFinally_st,
      executeInternalFinally_snaps, PairSync, List.all_append, List.all_cons,
      -List.all_eq_true]


/-- C1: for every lifecycle invocation driven by `run()`, `skip()`, or
`fail()`, the `internalFinally` hook is invoked exactly once, immediately
after the terminal status is assigned and before the (unique) terminal event
(`succeeded`/`failed`/`stopped`/`timed-out`/`skipped`/`error`) is emitted;
and if `internalFinally` throws, an `error` event "Internal finally failed"
is emitted between the finalize invocation and the terminal event, with the
terminal status unchanged — all of which the `goodTrace` scan expresses. -/
theorem c1_finalize_exactly_once (o : BaseRunnerOptions) (cb : Callbacks) (sch : Sched)
    (sa ms : Nat) (fr : Option FailureVal) (er : Option Nat) (sk : Option String)
    (me : Option Nat) (p : Bool) (n : Nat) (skipR : Option String) (failR : FailureVal) :
    (goodTrace (finThrows cb)
        (runExec o cb sch (mkIdleExec sa ms fr er sk me p n)).acts = true ∧
      (runExec o cb sch (mkIdleExec sa ms fr er sk me p n)).acts.count
        (Action.invoke CB.finallyCb) = 1 ∧
      (runExec o cb sch (mkIdleExec sa ms fr er sk me p n)).acts.countP
        (fun a => isTerminalEmit a) = 1) ∧
    (goodTrace (finThrows cb)
        (skipExec o cb skipR (mkIdleExec sa ms fr er sk me p n)).acts = true ∧
      (skipExec o cb skipR (mkIdleExec sa ms fr er sk me p n)).acts.count
        (Action.invoke CB.finallyCb) = 1 ∧
      (skipExec o cb skipR (mkIdleExec sa ms fr er sk me p n)).acts.countP
        (fun a => isTerminalEmit a) = 1) ∧
    (goodTrace (finThrows cb)
        (failExec o cb failR (mkIdleExec sa ms fr er sk me p n)).acts = true ∧
      (failExec o cb failR (mkIdleExec sa ms fr er sk me p n)).acts.count
        (Action.invoke CB.finallyCb) = 1 ∧
      (failExec o cb failR (mkIdleExec sa ms fr er sk me p n)).acts.countP
        (fun a => isTerminalEmit a) = 1) := by
  refine ⟨⟨runExec_goodTrace o cb sch sa ms fr er sk me p n, ?_, ?_⟩,
    ⟨skipExec_goodTrace o cb skipR sa ms fr er sk me p n, ?_, ?_⟩,
    ⟨failExec_goodTrace o cb failR sa ms fr er sk me p n, ?_, ?_⟩⟩
  · exact goodTrace_countFin _ _ (runExec_goodTrace o cb sch sa ms fr er sk me p n)
  · exact goodTrace_countTerm _ _ (runExec_goodTrace o cb sch sa ms fr er sk me p n)
  · exact goodTrace_countFin _ _ (skipExec_goodTrace o cb skipR sa ms fr er sk me p n)
  · exact goodTrace_countTerm _ _ (skipExec_goodTrace o cb skipR sa ms fr er sk me p n)
  · exact goodTrace_countFin _ _ (failExec_goodTrace o cb failR sa ms fr er sk me p n)
  · exact goodTrace_countTerm _ _ (failExec_goodTrace o cb failR sa ms fr er sk me p n)

/-- C2: whenever the lifecycle reaches the terminal decision (which `run()`
does exactly when the release phase completed without throwing, or was
skipped by the multi-mode release policy), the terminal status assigned is
chosen by the priority order of `specTerminalChoice` applied to
`stoppingIsActive`, `timedOut`, and the truthiness of `failureReason`; and a
completed release (`shouldRelease` true, `internalRelease` resolves) hands
the lifecycle to exactly this decision. -/
theorem c2_terminal_priority (o : BaseRunnerOptions) (cb : Callbacks) (e : Exec) :
    (∃ tail, (runTerminalDecision o cb e).acts =
      e.acts ++ Action.setStatus (specTerminalChoice e.st.stoppingIsActive e.st.timedOut
        (truthyFailure e.st.failureReason)) :: tail) ∧
    runReleasePhase { o with runMode := RunMode.single } { cb with releaseOutcome := .ok } e =
      runTerminalDecision { o with runMode := RunMode.single } { cb with releaseOutcome := .ok }
        (((((e.setStatus .releasing).emit .releasing).invokeHook .release)).emit .released) := by
  constructor
  · cases hSa : e.st.stoppingIsActive <;> cases hT : e.st.timedOut <;>
      cases hF : truthyFailure e.st.failureReason <;> cases hm : o.runMode <;>
        simp [runTerminalDecision, specTerminalChoice, hSa, hT, hF, hm, resetIfMultiMode,
          resetToIdle, Exec.setStatus, Exec.setSt, Exec.emit, executeInternalFinally_acts,
          executeInternalFinally_st, List.append_assoc]
  · simp [runReleasePhase, shouldRelease]

/-- C10: an accepted `stop()` call resolves only via
`waitForStatusLevel(Stopped)` or `waitForStatusLevel(TimedOut)` — whose wait
set is the full level-4 status list — and in every trace of a lifecycle with
an accepted stop (issued while `Running, or while `Preparing` in a
preparing configuration), no terminal event (the events that can resolve
that wait) is published before a level-4 status has been assigned. -/
theorem c10_stop_resolves_after_level4 (o : BaseRunnerOptions) (cb : Callbacks)
    (r : Option String) (sa ms : Nat) (fr : Option FailureVal) (er : Option Nat)
    (sk : Option String) (me : Option Nat) (p : Bool) (n : Nat) :
    waitForStatusLevelWaitSet Status.stopped =
      [Status.stopped, Status.failed, Status.error, Status.succeeded, Status.skipped,
        Status.timedOut] ∧
    waitForStatusLevelWaitSet Status.timedOut =
      [Status.stopped, Status.failed, Status.error, Status.succeeded, Status.skipped,
        Status.timedOut] ∧
    level4BeforeTerm false
      (runExec o cb (.stopDuringRun r) (mkIdleExec sa ms fr er sk me p n)).acts = true ∧
    level4BeforeTerm false
      (runExec { o with runMode := RunMode.single } cb (.stopDuringPrepare r)
        (mkIdleExec sa ms fr er sk me p n)).acts = true := by
  refine ⟨rfl, rfl, ?_, ?_⟩
  · exact goodTrace_level4 _ _ (runExec_goodTrace o cb (.stopDuringRun r) sa ms fr er sk me p n) false
  · exact goodTrace_level4 _ _
      (runExec_goodTrace { o with runMode := RunMode.single } cb (.stopDuringPrepare r)
        sa ms fr er sk me p n) false

theorem invoke_stop_not_mem_finSeq (cb : Callbacks) :
    Action.invoke CB.stop ∉ finSeq cb := by
  cases hf : cb.finallyOutcome <;> simp [finSeq, hf]

theorem invoke_run_not_mem_finSeq (cb : Callbacks) :
    Action.invoke CB.run ∉ finSeq cb := by
  cases hf : cb.finallyOutcome <;> simp [finSeq, hf]

theorem setStatus_running_not_mem_finSeq (cb : Callbacks) :
    Action.setStatus Status.running ∉ finSeq cb := by
  cases hf : cb.finallyOutcome <;> simp [finSeq, hf]

/-- C3 (counterexample to the claim as stated): a runner configured with a
timeout but in multi-run mode with the release policy `never` (the default
release policy) reaches `TimedOut` without ever passing through
`Releasing`. -/
theorem c3_counterexample :
    Action.setStatus Status.releasing ∉
      (runExec ⟨some 100, .multi, .always, .never, false⟩ ⟨.ok, .ok none, .ok, .ok, .ok⟩
        .timeoutFires (initialExec 0)).acts ∧
    Action.setStatus Status.timedOut ∈
      (runExec ⟨some 100, .multi, .always, .never, false⟩ ⟨.ok, .ok none, .ok, .ok, .ok⟩
        .timeoutFires (initialExec 0)).acts := by
  decide

/-- The actions appended by the multi-mode reset. -/
theorem resetIfMultiMode_acts (o : BaseRunnerOptions) (e : Exec) :
    (resetIfMultiMode o e).acts =
      e.acts ++ (if o.runMode = RunMode.multi then [Action.setStatus Status.idle] else []) := by
  cases hm : o.runMode <;> simp [resetIfMultiMode, resetToIdle, Exec.setStatus, Exec.setSt, hm]

theorem c3aux_indep (o : BaseRunnerOptions) (cb : Callbacks) (t : Nat)
    (r1 r2 : RunOutcome) (sa ms : Nat) (fr : Option FailureVal) (er : Option Nat)
    (sk : Option String) (me : Option Nat) (p : Bool) (n : Nat) :
    runExec { o with timeout := some (t+1) } { cb with runOutcome := r1 } .timeoutFires
        (mkIdleExec sa ms fr er sk me p n) =
      runExec { o with timeout := some (t+1) } { cb with runOutcome := r2 } .timeoutFires
        (mkIdleExec sa ms fr er sk me p n) := by
  rfl

set_option maxHeartbeats 1600000 in
theorem c3aux_noStop (o : BaseRunnerOptions) (cb : Callbacks) (t : Nat)
    (sa ms : Nat) (fr : Option FailureVal) (er : Option Nat)
    (sk : Option String) (me : Option Nat) (p : Bool) (n : Nat) :
    Action.invoke CB.stop ∉
      (runExec { o with timeout := some (t+1) } cb .timeoutFires
        (mkIdleExec sa ms fr er sk me p n)).acts := by
  cases hm : o.runMode <;>
  cases hpm : o.prepareOnMultiMode <;>
  cases p <;>
  cases hpo : cb.prepareOutcome <;>
  cases hro : cb.releaseOutcome <;>
  cases hrel : o.releaseOnMultiMode <;>
  simp [runExec, runPreparePhase, runAfterPrepare, runRunningPhase, afterRunSettled,
    runReleasePhase, runTerminalDecision, checkForStopping, dispatchMarkedAsStopping,
    applyStopDuringRun, applyStopDuringPrepare, attemptStop, attemptStopTail, stopCall,
    executeInternalFinally_acts, resetIfMultiMode_acts, emitWarningOrThrow,
    Exec.setStatus, Exec.setSt, Exec.emit, Exec.invokeHook, Exec.threw, mkIdleExec,
    mkIdleState, itShouldPrepare, shouldRelease, timeoutConfigured, hpo, hro, hm, hpm, hrel,
    invoke_stop_not_mem_finSeq]

set_option maxHeartbeats 1600000 in
theorem c3aux_timedOut (o : BaseRunnerOptions) (cb : Callbacks) (t : Nat)
    (sa ms : Nat) (fr : Option FailureVal) (er : Option Nat)
    (sk : Option String) (me : Option Nat) (p : Bool) (n : Nat) :
    Action.setStatus Status.timedOut ∈
      (runExec { o with timeout := some (t+1) }
        { cb with prepareOutcome := .ok, releaseOutcome := .ok } .timeoutFires
        (mkIdleExec sa ms fr er sk me p n)).acts := by
  cases hm : o.runMode <;>
  cases hpm : o.prepareOnMultiMode <;>
  cases p <;>
  cases hrel : o.releaseOnMultiMode <;>
  simp [runExec, runPreparePhase, runAfterPrepare, runRunningPhase, afterRunSettled,
    runReleasePhase, runTerminalDecision, checkForStopping, dispatchMarkedAsStopping,
    applyStopDuringRun, applyStopDuringPrepare, attemptStop, attemptStopTail, stopCall,
    executeInternalFinally_acts, resetIfMultiMode_acts, emitWarningOrThrow,
    Exec.setStatus, Exec.setSt, Exec.emit, Exec.invokeHook, Exec.threw, mkIdleExec,
    mkIdleState, itShouldPrepare, shouldRelease, timeoutConfigured, hm, hpm, hrel]

theorem c3aux_releasing_single (o : BaseRunnerOptions) (cb : Callbacks) (t : Nat)
    (sa ms : Nat) (fr : Option FailureVal) (er : Option Nat)
    (sk : Option String) (me : Option Nat) (p : Bool) (n : Nat) :
    Action.setStatus Status.releasing ∈
      (runExec { o with timeout := some (t+1), runMode := RunMode.single }
        { cb with prepareOutcome := .ok, releaseOutcome := .ok } .timeoutFires
        (mkIdleExec sa ms fr er sk me p n)).acts := by
  simp [runExec, runPreparePhase, runAfterPrepare, runRunningPhase, afterRunSettled,
    runReleasePhase, runTerminalDecision, checkForStopping, dispatchMarkedAsStopping,
    applyStopDuringRun, applyStopDuringPrepare, attemptStop, attemptStopTail, stopCall,
    executeInternalFinally_acts, resetIfMultiMode_acts, emitWarningOrThrow,
    Exec.setStatus, Exec.setSt, Exec.emit, Exec.invokeHook, Exec.threw, mkIdleExec,
    mkIdleState, itShouldPrepare, shouldRelease, timeoutConfigured]

set_option maxHeartbeats 800000 in
theorem c3aux_releasing_multiAlways (o : BaseRunnerOptions) (cb : Callbacks) (t : Nat)
    (sa ms : Nat) (fr : Option FailureVal) (er : Option Nat)
    (sk : Option String) (me : Option Nat) (p : Bool) (n : Nat) :
    Action.setStatus Status.releasing ∈
      (runExec
        { o with
            timeout := some (t+1), runMode := RunMode.multi,
            releaseOnMultiMode := ReleaseOnMultiMode.always }
        { cb with prepareOutcome := .ok, releaseOutcome := .ok } .timeoutFires
        (mkIdleExec sa ms fr er sk me p n)).acts := by
  cases hpm : o.prepareOnMultiMode <;>
  cases p <;>
  simp [runExec, runPreparePhase, runAfterPrepare, runRunningPhase, afterRunSettled,
    runReleasePhase, runTerminalDecision, checkForStopping, dispatchMarkedAsStopping,
    applyStopDuringRun, applyStopDuringPrepare, attemptStop, attemptStopTail, stopCall,
    executeInternalFinally_acts, resetIfMultiMode_acts, emitWarningOrThrow,
    Exec.setStatus, Exec.setSt, Exec.emit, Exec.invokeHook, Exec.threw, mkIdleExec,
    mkIdleState, itShouldPrepare, shouldRelease, timeoutConfigured, hpm]

theorem c3aux_flag (o : BaseRunnerOptions) (cb : Callbacks) (t : Nat)
    (sa ms : Nat) (fr : Option FailureVal) (er : Option Nat)
    (sk : Option String) (me : Option Nat) (p : Bool) (n : Nat) :
    (runExec { o with timeout := some (t+1), runMode := RunMode.single }
        { cb with prepareOutcome := .ok, releaseOutcome := .ok } .timeoutFires
        (mkIdleExec sa ms fr er sk me p n)).st.timedOut = true := by
  simp [runExec, runPreparePhase, runAfterPrepare, runRunningPhase, afterRunSettled,
    runReleasePhase, runTerminalDecision, checkForStopping, dispatchMarkedAsStopping,
    applyStopDuringRun, applyStopDuringPrepare, attemptStop, attemptStopTail, stopCall,
    executeInternalFinally_st, executeInternalFinally_acts, resetIfMultiMode, resetToIdle,
    emitWarningOrThrow, Exec.setStatus, Exec.setSt, Exec.emit, Exec.invokeHook,
    Exec.threw, mkIdleExec, mkIdleState, itShouldPrepare, shouldRelease, timeoutConfigured]

/-- C3 (amended): when a configured (non-zero) timeout fires before the run
callback settles, the lifecycle detaches from the run promise: the whole
execution is independent of the run callback eventual outcome, the
user `internalStop` callback is never invoked, the `TimedOut` terminal
status is reached (when prepare and release resolve), the lifecycle passes
through `Releasing` exactly when the release policy applies (always in
single-run mode, or with the `always` release policy in multi-run mode),
and the `timedOut` flag is set. -/
theorem c3_timeout_detaches_run (o : BaseRunnerOptions) (cb : Callbacks) (t : Nat)
    (r1 r2 : RunOutcome) (sa ms : Nat) (fr : Option FailureVal) (er : Option Nat)
    (sk : Option String) (me : Option Nat) (p : Bool) (n : Nat) :
    runExec { o with timeout := some (t+1) } { cb with runOutcome := r1 } .timeoutFires
        (mkIdleExec sa ms fr er sk me p n) =
      runExec { o with timeout := some (t+1) } { cb with runOutcome := r2 } .timeoutFires
        (mkIdleExec sa ms fr er sk me p n) ∧
    Action.invoke CB.stop ∉
      (runExec { o with timeout := some (t+1) } cb .timeoutFires
        (mkIdleExec sa ms fr er sk me p n)).acts ∧
    Action.setStatus Status.timedOut ∈
      (runExec { o with timeout := some (t+1) }
        { cb with prepareOutcome := .ok, releaseOutcome := .ok } .timeoutFires
        (mkIdleExec sa ms fr er sk me p n)).acts ∧
    Action.setStatus Status.releasing ∈
      (runExec { o with timeout := some (t+1), runMode := RunMode.single }
        { cb with prepareOutcome := .ok, releaseOutcome := .ok } .timeoutFires
        (mkIdleExec sa ms fr er sk me p n)).acts ∧
    Action.setStatus Status.releasing ∈
      (runExec
        { o with
            timeout := some (t+1), runMode := RunMode.multi,
            releaseOnMultiMode := ReleaseOnMultiMode.always }
        { cb with prepareOutcome := .ok, releaseOutcome := .ok } .timeoutFires
        (mkIdleExec sa ms fr er sk me p n)).acts ∧
    (runExec { o with timeout := some (t+1), runMode := RunMode.single }
        { cb with prepareOutcome := .ok, releaseOutcome := .ok } .timeoutFires
        (mkIdleExec sa ms fr er sk me p n)).st.timedOut = true :=
  ⟨c3aux_indep o cb t r1 r2 sa ms fr er sk me p n,
   c3aux_noStop o cb t sa ms fr er sk me p n,
   c3aux_timedOut o cb t sa ms fr er sk me p n,
   c3aux_releasing_single o cb t sa ms fr er sk me p n,
   c3aux_releasing_multiAlways o cb t sa ms fr er sk me p n,
   c3aux_flag o cb t sa ms fr er sk me p n⟩

/-- C4: a `stop(reason)` call made while the status is `Preparing` records
the reason and sets `markedAsStopping` without any other effect, and — in
any configuration that actually prepares — once the prepare callback
completes the runner short-circuits to `Stopped`, emitting the `stopping`
and `stopped` events (with that reason), never assigning `Running` and
never invoking `internalRun` (nor `internalStop`). -/
theorem c4_stop_during_preparing (o : BaseRunnerOptions) (cb : Callbacks) (r : Option String)
    (s : RunnerState) (n2 : Nat) (a : List Action) (sn : List RunnerState)
    (sa ms : Nat) (fr : Option FailureVal) (er : Option Nat) (sk : Option String)
    (me : Option Nat) (p : Bool) (n : Nat)
    (hp : itShouldPrepare o p = true) :
    ((stopCall o cb r ⟨{ s with status := Status.preparing }, n2, a, sn⟩).1.st.markedAsStopping
        = true ∧
      (stopCall o cb r ⟨{ s with status := Status.preparing }, n2, a, sn⟩).1.st.stoppingReason
        = r ∧
      (stopCall o cb r ⟨{ s with status := Status.preparing }, n2, a, sn⟩).2
        = StopKind.marked ∧
      (stopCall o cb r ⟨{ s with status := Status.preparing }, n2, a, sn⟩).1.acts = a) ∧
    (Action.invoke CB.run ∉
        (runExec o { cb with prepareOutcome := .ok } (.stopDuringPrepare r)
          (mkIdleExec sa ms fr er sk me p n)).acts ∧
      Action.setStatus Status.running ∉
        (runExec o { cb with prepareOutcome := .ok } (.stopDuringPrepare r)
          (mkIdleExec sa ms fr er sk me p n)).acts ∧
      Action.invoke CB.stop ∉
        (runExec o { cb with prepareOutcome := .ok } (.stopDuringPrepare r)
          (mkIdleExec sa ms fr er sk me p n)).acts ∧
      Action.emitEv (Ev.stopping r) ∈
        (runExec o { cb with prepareOutcome := .ok } (.stopDuringPrepare r)
          (mkIdleExec sa ms fr er sk me p n)).acts ∧
      Action.setStatus Status.stopped ∈
        (runExec o { cb with prepareOutcome := .ok } (.stopDuringPrepare r)
          (mkIdleExec sa ms fr er sk me p n)).acts ∧
      Action.emitEv (Ev.stopped r) ∈
        (runExec o { cb with prepareOutcome := .ok } (.stopDuringPrepare r)
          (mkIdleExec sa ms fr er sk me p n)).acts) := by
  constructor
  · simp [stopCall, Exec.setSt]
  · cases hm : o.runMode <;>
      refine ⟨?_, ?_, ?_, ?_, ?_, ?_⟩ <;>
        simp [runExec, runPreparePhase, runAfterPrepare, runRunningPhase, afterRunSettled,
          runReleasePhase, runTerminalDecision, checkForStopping, dispatchMarkedAsStopping,
          applyStopDuringRun, applyStopDuringPrepare, attemptStop, attemptStopTail, stopCall,
          executeInternalFinally_acts, executeInternalFinally_st, resetIfMultiMode_acts,
          emitWarningOrThrow, Exec.setStatus, Exec.setSt, Exec.emit, Exec.invokeHook,
          Exec.threw, mkIdleExec, mkIdleState, shouldRelease, timeoutConfigured, hp, hm,
          invoke_run_not_mem_finSeq, invoke_stop_not_mem_finSeq,
          setStatus_running_not_mem_finSeq]

/-- Witness for C4 at a concrete single-run configuration. -/
theorem c4_stop_during_preparing_witness :
    (stopCall ⟨none, .single, .always, .never, false⟩ ⟨.ok, .ok none, .ok, .ok, .ok⟩
        (some "x")
        ⟨{ initialState 0 with status := Status.preparing }, 0, [], []⟩).1.st.markedAsStopping
      = true ∧
    Action.invoke CB.run ∉
      (runExec ⟨none, .single, .always, .never, false⟩
        { (⟨.ok, .ok none, .ok, .ok, .ok⟩ : Callbacks) with prepareOutcome := .ok }
        (.stopDuringPrepare (some "x")) (mkIdleExec 0 0 none none none none false 0)).acts := by
  have h := c4_stop_during_preparing ⟨none, .single, .always, .never, false⟩
    ⟨.ok, .ok none, .ok, .ok, .ok⟩ (some "x") (initialState 0) 0 [] []
    0 0 none none none none false 0 rfl
  exact ⟨h.1.1, h.2.1⟩

/-- C5 (counterexample to the claim as stated): after one full multi-run
lifecycle the reset has cleared `finishedAt` but not `measurement`, so the
caller of `run()` observes a state in which exactly one of the two is set. -/
theorem c5_counterexample :
    (runExec ⟨none, .multi, .always, .never, false⟩ ⟨.ok, .ok none, .ok, .ok, .ok⟩ .quiet
        (initialExec 0)).st.measurement = some 2 ∧
    (runExec ⟨none, .multi, .always, .never, false⟩ ⟨.ok, .ok none, .ok, .ok, .ok⟩ .quiet
        (initialExec 0)).st.finishedAt = none ∧
    (runExec ⟨none, .multi, .always, .never, false⟩ ⟨.ok, .ok none, .ok, .ok, .ok⟩ .quiet
        (initialExec 0)).st.status = Status.idle := by
  decide

/-- C5 (amended): within a lifecycle invocation started on a fresh runner,
`measurement` and `finishedAt` are always assigned together in the same
synchronous step, so every state observable at a suspension point — and, in
single-run mode, the final state — has either both set or both null; the
multi-run reset is the exception that clears `finishedAt` while keeping
`measurement`. Moreover `skip()` assigns neither field (its terminal state
keeps both null), while `fail(reason)` assigns both to the moment of the
call. -/
theorem c5_measurement_finishedAt_pairing (o : BaseRunnerOptions) (cb : Callbacks)
    (sch : Sched) (t0 : Nat) (r : Option String) (fv : FailureVal) :
    (runExec o cb sch (initialExec t0)).snaps.all PairSync = true ∧
    PairSync (runExec { o with runMode := RunMode.single } cb sch (initialExec t0)).st = true ∧
    (skipExec o cb r (initialExec t0)).snaps.all PairSync = true ∧
    PairSync (skipExec { o with runMode := RunMode.single } cb r (initialExec t0)).st = true ∧
    (failExec o cb fv (initialExec t0)).snaps.all PairSync = true ∧
    PairSync (failExec { o with runMode := RunMode.single } cb fv (initialExec t0)).st = true ∧
    (skipExec { o with runMode := RunMode.single } cb r (initialExec t0)).st.measurement
      = none ∧
    (skipExec { o with runMode := RunMode.single } cb r (initialExec t0)).st.finishedAt
      = none ∧
    (failExec { o with runMode := RunMode.single } cb fv (initialExec t0)).st.measurement
      = some 0 ∧
    (failExec { o with runMode := RunMode.single } cb fv (initialExec t0)).st.finishedAt
      = some t0 := by
  refine ⟨(runExec_snaps o cb sch t0 t0 none none none false t0).1,
    (runExec_snaps { o with runMode := RunMode.single } cb sch t0 t0 none none none false
      t0).2 rfl,
    (skipExec_snaps o cb r t0 t0 none none none false t0).1,
    (skipExec_snaps { o with runMode := RunMode.single } cb r t0 t0 none none none false
      t0).2 rfl,
    (failExec_snaps o cb fv t0 t0 none none none false t0).1,
    (failExec_snaps { o with runMode := RunMode.single } cb fv t0 t0 none none none false
      t0).2 rfl, ?_, ?_, ?_, ?_⟩ <;>
  simp [skipExec, failExec, initialExec, initialState, mkIdleState, resetIfMultiMode,
    Exec.setStatus, Exec.setSt, Exec.emit, executeInternalFinally_st]

/-- C6: every `stop()` call made while the runner is `Idle`, `Stopping`,
`Releasing`, in any terminal state, or `Running` with `runHasFinished`
already true, is rejected as misuse: a descriptive `warning` event is
emitted when a warning subscriber is registered, otherwise the message is
thrown synchronously (`warnAct`), and the runner state is returned exactly
unchanged. -/
theorem c6_stop_rejections (o : BaseRunnerOptions) (cb : Callbacks) (r : Option String)
    (s : RunnerState) (n : Nat) (a : List Action) (sn : List RunnerState) :
    stopCall o cb r ⟨{ s with status := Status.idle }, n, a, sn⟩ =
      (⟨{ s with status := Status.idle }, n,
        a ++ warnAct o "Stop was called but runner is not running", sn⟩, .rejected) ∧
    stopCall o cb r ⟨{ s with status := Status.stopping }, n, a, sn⟩ =
      (⟨{ s with status := Status.stopping }, n,
        a ++ warnAct o "Stop was called but runner is already stopping", sn⟩, .rejected) ∧
    stopCall o cb r ⟨{ s with status := Status.skipped }, n, a, sn⟩ =
      (⟨{ s with status := Status.skipped }, n,
        a ++ warnAct o "Stop was called but runner was skipped", sn⟩, .rejected) ∧
    stopCall o cb r ⟨{ s with status := Status.releasing }, n, a, sn⟩ =
      (⟨{ s with status := Status.releasing }, n,
        a ++ warnAct o "Stop was called but runner is releasing", sn⟩, .rejected) ∧
    stopCall o cb r ⟨{ s with status := Status.failed }, n, a, sn⟩ =
      (⟨{ s with status := Status.failed }, n,
        a ++ warnAct o "Stop was called but runner has already finished", sn⟩, .rejected) ∧
    stopCall o cb r ⟨{ s with status := Status.error }, n, a, sn⟩ =
      (⟨{ s with status := Status.error }, n,
        a ++ warnAct o "Stop was called but runner has already finished", sn⟩, .rejected) ∧
    stopCall o cb r ⟨{ s with status := Status.succeeded }, n, a, sn⟩ =
      (⟨{ s with status := Status.succeeded }, n,
        a ++ warnAct o "Stop was called but runner has already finished", sn⟩, .rejected) ∧
    stopCall o cb r ⟨{ s with status := Status.stopped }, n, a, sn⟩ =
      (⟨{ s with status := Status.stopped }, n,
        a ++ warnAct o "Stop was called but runner has already finished", sn⟩, .rejected) ∧
    stopCall o cb r ⟨{ s with status := Status.timedOut }, n, a, sn⟩ =
      (⟨{ s with status := Status.timedOut }, n,
        a ++ warnAct o "Stop was called but runner has already finished", sn⟩, .rejected) ∧
    stopCall o cb r ⟨{ s with status := Status.running, runHasFinished := true }, n, a, sn⟩ =
      (⟨{ s with status := Status.running, runHasFinished := true }, n,
        a ++ warnAct o "Stop was called but runner has already finished", sn⟩, .rejected) := by
  refine ⟨?_, ?_, ?_, ?_, ?_, ?_, ?_, ?_, ?_, ?_⟩ <;>
    cases hW : o.hasWarningListener <;>
      simp [stopCall, emitWarningOrThrow, warnAct, Exec.emit, Exec.threw, hW]

/-- C7: `fail(reason)` from `Idle` goes straight to `Failed` with
`failureReason = reason` and `startedAt`/`finishedAt` both set to the moment
of the call; the finalize hook still runs, the `failed` terminal event is
emitted, and none of `internalPrepare`/`internalRun`/`internalRelease` are
invoked. The observable snapshot at the finalize suspension point, and in
single-run mode the final state, are that exact failed state. -/
theorem c7_fail_from_idle (o : BaseRunnerOptions) (cb : Callbacks) (reason : FailureVal)
    (s : RunnerState) (n : Nat) :
    (failExec o cb reason ⟨{ s with status := Status.idle }, n, [], []⟩).snaps =
      [{ s with
          status := Status.failed, failureReason := some reason, startedAt := n,
          finishedAt := some n, measurement := some (n - s.measurerStart) }] ∧
    RunnerState.startedAtPub
      { s with
          status := Status.failed, failureReason := some reason, startedAt := n,
          finishedAt := some n, measurement := some (n - s.measurerStart) } = some n ∧
    Action.invoke CB.prepare ∉
      (failExec o cb reason ⟨{ s with status := Status.idle }, n, [], []⟩).acts ∧
    Action.invoke CB.run ∉
      (failExec o cb reason ⟨{ s with status := Status.idle }, n, [], []⟩).acts ∧
    Action.invoke CB.release ∉
      (failExec o cb reason ⟨{ s with status := Status.idle }, n, [], []⟩).acts ∧
    Action.invoke CB.finallyCb ∈
      (failExec o cb reason ⟨{ s with status := Status.idle }, n, [], []⟩).acts ∧
    Action.setStatus Status.failed ∈
      (failExec o cb reason ⟨{ s with status := Status.idle }, n, [], []⟩).acts ∧
    Action.emitEv (Ev.failed (some reason)) ∈
      (failExec o cb reason ⟨{ s with status := Status.idle }, n, [], []⟩).acts ∧
    (failExec { o with runMode := RunMode.single } cb reason
        ⟨{ s with status := Status.idle }, n, [], []⟩).st =
      { s with
          status := Status.failed, failureReason := some reason, startedAt := n,
          finishedAt := some n, measurement := some (n - s.measurerStart) } := by
  refine ⟨?_, rfl, ?_, ?_, ?_, ?_, ?_, ?_, ?_⟩ <;>
    cases hm : o.runMode <;>
      cases hf : cb.finallyOutcome <;>
        simp [failExec, resetIfMultiMode, resetToIdle, executeInternalFinally,
          Exec.setStatus, Exec.setSt, Exec.emit, Exec.invokeHook, finSeq, hm, hf]

/-- C8: `waitForStatusLevel` resolves immediately exactly when the current
status's level is at least the requested status's level, under the mapping
Idle = 0, Preparing = 1, Running = Stopping = 2, Releasing = 3, and all six
terminal statuses = 4; otherwise it waits on exactly the statuses sharing
the requested level, so a caller waiting for `Succeeded` is also resolved by
`Failed`, `Error`, `Stopped`, `Skipped`, or `TimedOut`. -/
theorem c8_wait_levels :
    STATUS_LEVEL_MAP Status.idle = 0 ∧ STATUS_LEVEL_MAP Status.preparing = 1 ∧
    STATUS_LEVEL_MAP Status.running = 2 ∧ STATUS_LEVEL_MAP Status.stopping = 2 ∧
    STATUS_LEVEL_MAP Status.releasing = 3 ∧
    STATUS_LEVEL_MAP Status.succeeded = 4 ∧ STATUS_LEVEL_MAP Status.failed = 4 ∧
    STATUS_LEVEL_MAP Status.error = 4 ∧ STATUS_LEVEL_MAP Status.stopped = 4 ∧
    STATUS_LEVEL_MAP Status.skipped = 4 ∧ STATUS_LEVEL_MAP Status.timedOut = 4 ∧
    (∀ requested current : Status,
      waitForStatusLevelImmediate requested current = true ↔
        STATUS_LEVEL_MAP requested ≤ STATUS_LEVEL_MAP current) ∧
    (∀ requested st : Status,
      st ∈ waitForStatusLevelWaitSet requested ↔
        STATUS_LEVEL_MAP st = STATUS_LEVEL_MAP requested) ∧
    waitForStatusLevelWaitSet Status.succeeded =
      [Status.stopped, Status.failed, Status.error, Status.succeeded, Status.skipped,
        Status.timedOut] := by
  refine ⟨rfl, rfl, rfl, rfl, rfl, rfl, rfl, rfl, rfl, rfl, rfl, ?_, ?_, rfl⟩
  · intro requested current
    simp [waitForStatusLevelImmediate]
  · decide

/-- C9 (counterexample to the claim as stated): `_resetToIdle` also clears
`stoppingReason`, a field outside the five the claim lists as the exact set
of cleared fields. -/
theorem c9_counterexample :
    ({ initialState 0 with stoppingReason := some "graceful" } : RunnerState).stoppingReason
      = some "graceful" ∧
    (resetToIdle
        ⟨{ initialState 0 with stoppingReason := some "graceful" }, 0, [], []⟩).st.stoppingReason
      = none :=
  ⟨rfl, rfl⟩

/-- C9 (amended): the multi-mode reset sets the status back to `Idle` and
clears exactly `markedAsStopping`, `stoppingIsActive`, `runHasFinished`,
`timedOut`, `finishedAt`, plus `stoppingReason` and the stored timer handle;
it preserves `failureReason`, `error`, and the `prepared` flag (and also
`measurement` and `skipReason`). In single-run mode no reset happens. -/
theorem c9_reset_characterization (o : BaseRunnerOptions) (e : Exec) :
    (resetToIdle e).st =
      { e.st with
          status := Status.idle, timeoutSet := false, stoppingReason := none,
          markedAsStopping := false, stoppingIsActive := false, runHasFinished := false,
          finishedAt := none, timedOut := false } ∧
    (resetToIdle e).st.failureReason = e.st.failureReason ∧
    (resetToIdle e).st.error = e.st.error ∧
    (resetToIdle e).st.prepared = e.st.prepared ∧
    (resetToIdle e).st.measurement = e.st.measurement ∧
    (resetToIdle e).st.skipReason = e.st.skipReason ∧
    resetIfMultiMode { o with runMode := RunMode.multi } e = resetToIdle e ∧
    resetIfMultiMode { o with runMode := RunMode.single } e = e := by
  refine ⟨rfl, rfl, rfl, rfl, rfl, rfl, ?_, ?_⟩ <;>
    simp [resetIfMultiMode]

end BaseRunner
